import Mathlib

/-!
dssi-vst, the DSSI adapter for remote VST plugins: a shallow embedding of
`src/dssi-vst.cpp`.

Conventions of the embedding.

* A C array reached through a pointer (`m_controlPorts`, `ports`, `names`,
  `m_decodeBuffer`, ...) is a function from the index to the element; its
  length lives, as in the C code, in a separate count.  An assignment
  `a[i] = v` is `Function.update a i v`.
* `LADSPA_Data` (a `float` in `ladspa.h`) is a rational number: the finite
  values, compared exactly.  Rounding and NaN are outside the model.
* A `LADSPA_Data *` handed over by the host is `Option Nat`: `none` is the
  null pointer, `some a` the host cell with address `a`.  Host memory maps
  addresses to values, so two ports may share one cell.  Audio sample
  buffers are not part of this memory: `ladspa.h` warns hosts against using
  one buffer for both audio and control data.
* The remote plugin client (`RemotePluginClient`, not part of this file) is
  an oracle: it sees the calls issued so far, the newest last, and answers
  with a value or with `RemotePluginClosedException`.
* `unsigned long` is 64 bits wide.
* A `std::string` or `char *` is a `String`; embedded NUL characters are not
  modelled.
-/

namespace DssiVst

/-! ## Constants -/

/-- The `#define MIDI_BUFFER_SIZE 1023` of the source. -/
def MIDI_BUFFER_SIZE : Nat := 1023

/-- Values of `ladspa.h`: port descriptor bits. -/
def LADSPA_PORT_INPUT : Nat := 0x1
def LADSPA_PORT_OUTPUT : Nat := 0x2
def LADSPA_PORT_CONTROL : Nat := 0x4
def LADSPA_PORT_AUDIO : Nat := 0x8

/-- Values of `ladspa.h`: range hint bits. -/
def LADSPA_HINT_BOUNDED_BELOW : Nat := 0x1
def LADSPA_HINT_BOUNDED_ABOVE : Nat := 0x2
def LADSPA_HINT_DEFAULT_MASK : Nat := 0x3C0
def LADSPA_HINT_DEFAULT_MINIMUM : Nat := 0x40
def LADSPA_HINT_DEFAULT_LOW : Nat := 0x80
def LADSPA_HINT_DEFAULT_MIDDLE : Nat := 0xC0
def LADSPA_HINT_DEFAULT_HIGH : Nat := 0x100
def LADSPA_HINT_DEFAULT_MAXIMUM : Nat := 0x140

abbrev LADSPA_Data := ℚ

/-- A `LADSPA_Data *`: `none` is the null pointer. -/
abbrev DataPtr := Option Nat

/-- The cells of the host that control and latency ports point into. -/
abbrev HostMem := Nat → LADSPA_Data

/-- The `#define NO_CONTROL_DATA -10000000000000.0` of the source. -/
def NO_CONTROL_DATA : LADSPA_Data := -10000000000000

/-! ## Loops -/

/-- The loop `for (i = 0; i < n; ++i) body`, on a state of type `σ`. -/
def forLoop {σ : Type} : Nat → (Nat → σ → σ) → σ → σ
  | 0, _, s => s
  | n + 1, body, s => body n (forLoop n body s)

/-! ## Descriptor synthesis (`DSSIVSTPlugin::DSSIVSTPlugin`) -/

/-- The fields of `RemoteVSTClient::PluginRecord` the constructor reads. -/
structure PluginRecord where
  dllName : String
  pluginName : String
  vendorName : String
  parameters : Nat
  inputs : Nat
  outputs : Nat
  parameterNames : Nat → String
  parameterDefaults : Nat → LADSPA_Data
  isSynth : Bool

structure LADSPA_PortRangeHint where
  HintDescriptor : Nat
  LowerBound : LADSPA_Data
  UpperBound : LADSPA_Data

/-- The three arrays `ports`, `names`, `hints` the constructor fills. -/
structure PortTables where
  ports : Nat → Nat
  names : Nat → String
  hints : Nat → LADSPA_PortRangeHint

/-- The `if`/`else if` chain on `deflt` (lines 454-464): the default bits
or-ed into the hint descriptor. -/
def defaultHint (deflt : LADSPA_Data) : Nat :=
  if deflt < 1 / 10000 then LADSPA_HINT_DEFAULT_MINIMUM
  else if deflt > 999 / 1000 then LADSPA_HINT_DEFAULT_MAXIMUM
  else if deflt < 35 / 100 then LADSPA_HINT_DEFAULT_LOW
  else if deflt > 65 / 100 then LADSPA_HINT_DEFAULT_HIGH
  else LADSPA_HINT_DEFAULT_MIDDLE

/-- Body of the loop over the parameters (lines 446-465). -/
def parameterPort (rec : PluginRecord) (i : Nat) (t : PortTables) : PortTables :=
  { ports := Function.update t.ports i (LADSPA_PORT_INPUT ||| LADSPA_PORT_CONTROL)
    names := Function.update t.names i (rec.parameterNames i)
    hints := Function.update t.hints i
      { HintDescriptor :=
          (LADSPA_HINT_BOUNDED_BELOW ||| LADSPA_HINT_BOUNDED_ABOVE) |||
            defaultHint (rec.parameterDefaults i)
        LowerBound := 0
        UpperBound := 1 } }

/-- Body of the loop over the audio inputs (lines 467-474). -/
def inputPort (rec : PluginRecord) (i : Nat) (t : PortTables) : PortTables :=
  let j := i + rec.parameters
  { ports := Function.update t.ports j (LADSPA_PORT_INPUT ||| LADSPA_PORT_AUDIO)
    names := Function.update t.names j ("in" ++ toString (i + 1))
    hints := Function.update t.hints j { t.hints j with HintDescriptor := 0 } }

/-- Body of the loop over the audio outputs (lines 476-483). -/
def outputPort (rec : PluginRecord) (i : Nat) (t : PortTables) : PortTables :=
  let j := i + rec.inputs + rec.parameters
  { ports := Function.update t.ports j (LADSPA_PORT_OUTPUT ||| LADSPA_PORT_AUDIO)
    names := Function.update t.names j ("out" ++ toString (i + 1))
    hints := Function.update t.hints j { t.hints j with HintDescriptor := 0 } }

/-- The latency port, written at `portCount - 1` (lines 485-487). -/
def latencyPort (portCount : Nat) (t : PortTables) : PortTables :=
  { ports := Function.update t.ports (portCount - 1) (LADSPA_PORT_OUTPUT ||| LADSPA_PORT_CONTROL)
    names := Function.update t.names (portCount - 1) "_latency"
    hints := Function.update t.hints (portCount - 1)
      { t.hints (portCount - 1) with HintDescriptor := 0 } }

/-- The label: a copy of `dllName` with every space turned into an asterisk
(lines 424-427). -/
def makeLabel (dllName : String) : String :=
  String.mk (dllName.data.map (fun c => if c = ' ' then '*' else c))

/-- The part of `LADSPA_Descriptor` the constructor derives from the record. -/
structure LADSPA_Descriptor where
  UniqueID : Nat
  Label : String
  Name : String
  Maker : String
  Copyright : String
  PortCount : Nat
  PortDescriptors : Nat → Nat
  PortNames : Nat → String
  PortRangeHints : Nat → LADSPA_PortRangeHint

/-- One pass of the loop over the catalog (lines 413-521) for the record at
position `p`; `fresh` is the content of the newly allocated arrays. -/
def buildDescriptor (fresh : PortTables) (p : Nat) (rec : PluginRecord) : LADSPA_Descriptor :=
  let portCount := rec.parameters + rec.inputs + rec.outputs + 1
  let t := forLoop rec.parameters (parameterPort rec) fresh
  let t := forLoop rec.inputs (inputPort rec) t
  let t := forLoop rec.outputs (outputPort rec) t
  let t := latencyPort portCount t
  { UniqueID := 6666 + p
    Label := makeLabel rec.dllName
    Name := rec.pluginName ++ " VST"
    Maker := rec.vendorName
    Copyright := rec.vendorName
    PortCount := portCount
    PortDescriptors := t.ports
    PortNames := t.names
    PortRangeHints := t.hints }

/-! ## The adapter instance (`DSSIVSTPluginInstance`) -/

/-- Two to the power 64: the range of `unsigned long`. -/
def ULONG_RANGE : Nat := 18446744073709551616

/-- Subtraction of `unsigned long` values, as `port -= count` computes it. -/
def usub (a b : Nat) : Nat := (a + ULONG_RANGE - b % ULONG_RANGE) % ULONG_RANGE

/-- A `DSSI_Program_Descriptor`; `Name` is the address of a C string. -/
structure DSSI_Program_Descriptor where
  Bank : Nat
  Program : Nat
  Name : Nat

/-- The data members of `DSSIVSTPluginInstance`.  Pointer members that the
code only tests against null (`m_alsaDecoder`, `m_plugin`) are booleans. -/
structure Instance where
  m_sampleRate : Nat
  m_lastSampleCount : Nat
  m_controlPorts : Nat → DataPtr
  m_controlPortsSaved : Nat → LADSPA_Data
  m_controlPortCount : Nat
  m_audioIns : Nat → DataPtr
  m_audioInCount : Nat
  m_audioOuts : Nat → DataPtr
  m_audioOutCount : Nat
  m_latencyOut : DataPtr
  m_programs : Nat → DSSI_Program_Descriptor
  m_programCount : Nat
  m_decodeBuffer : Nat → Nat
  m_frameOffsetsBuffer : Nat → Int
  m_alsaDecoder : Bool
  m_pendingProgram : Bool
  m_plugin : Bool
  m_ok : Bool

/-- One call on the remote plugin client.  Arrays passed by pointer are
recorded by their content at the time of the call. -/
inductive RemoteCall where
  | create (dllName : String)
  | getParameterCount
  | getInputCount
  | getOutputCount
  | getProgramCount
  | getProgramName (i : Nat)
  | setSampleRate (rate : Nat)
  | reset
  | setBufferSize (n : Nat)
  | setParameter (i : Nat) (v : LADSPA_Data)
  | getParameter (i : Nat)
  | setCurrentProgram (p : Nat)
  | process (ins outs : List DataPtr)
  | sendMIDIData (data : List Nat) (frameOffsets : List Int) (events : Nat)
  | terminate
  deriving DecidableEq

/-- What the remote side answers to a call: `closed` stands for a thrown
`RemotePluginClosedException`; the other fields are the return value read
by the caller (a parameter value, a count, a program name). -/
structure Reply where
  closed : Bool
  value : LADSPA_Data
  count : Nat
  name : String

/-- The remote side: the answer to the newest call of a call history. -/
abbrev Remote := List RemoteCall → Reply

/-- C strings obtained from `strdup`: content by address (`none` once
freed), and the next address the allocator hands out. -/
structure StringHeap where
  cells : Nat → Option String
  next : Nat

/-- Everything an operation of the adapter can read or change. -/
structure World where
  inst : Instance
  mem : HostMem
  heap : StringHeap
  log : List RemoteCall

/-- The library call `strdup`. -/
def strdup (h : StringHeap) (s : String) : Nat × StringHeap :=
  (h.next, { cells := Function.update h.cells h.next (some s), next := h.next + 1 })

/-- A call on `m_plugin`: it is appended to the history; `Except.error`
carries the world in which `RemotePluginClosedException` is thrown. -/
def issue (r : Remote) (c : RemoteCall) (w : World) : Except World (Reply × World) :=
  let w1 := { w with log := w.log ++ [c] }
  if (r w1.log).closed then Except.error w1 else Except.ok (r w1.log, w1)

/-- The loop `for (i = 0; i < n; ++i) body` when the body may throw. -/
def forLoopE : Nat → (Nat → World → Except World World) → World → Except World World
  | 0, _, w => Except.ok w
  | n + 1, body, w =>
    match forLoopE n body w with
    | Except.ok w1 => body n w1
    | Except.error e => Except.error e

/-- The handler `catch (RemotePluginClosedException) { m_ok = false; }`. -/
def markFailed (w : World) : World :=
  { w with inst := { w.inst with m_ok := false } }

/-- Body of the loop that builds the program table (lines 161-166). -/
def constructProgram (r : Remote) (i : Nat) (w : World) : Except World World :=
  match issue r (RemoteCall.getProgramName i) w with
  | Except.error e => Except.error e
  | Except.ok (rep, w1) =>
    let a := strdup w1.heap rep.name
    Except.ok { w1 with
      heap := a.2
      inst := { w1.inst with
        m_programs := Function.update w1.inst.m_programs i
          { Bank := 0, Program := i, Name := a.1 } } }

/-- The `try` block of the constructor (lines 147-177); `decoderOk` tells
whether `snd_midi_event_new` delivered a decoder. -/
def constructTry (r : Remote) (decoderOk : Bool) (dllName : String) (w : World) :
    Except World World :=
  match issue r (RemoteCall.create dllName) w with
  | Except.error e => Except.error e
  | Except.ok (_, w) =>
  let w := { w with inst := { w.inst with m_plugin := true } }
  match issue r RemoteCall.getParameterCount w with
  | Except.error e => Except.error e
  | Except.ok (rep, w) =>
  let w := { w with inst := { w.inst with
    m_controlPortCount := rep.count % ULONG_RANGE
    m_controlPorts := fun _ => none
    m_controlPortsSaved := fun _ => NO_CONTROL_DATA } }
  match issue r RemoteCall.getInputCount w with
  | Except.error e => Except.error e
  | Except.ok (rep, w) =>
  let w := { w with inst := { w.inst with
    m_audioInCount := rep.count % ULONG_RANGE
    m_audioIns := fun _ => none } }
  match issue r RemoteCall.getOutputCount w with
  | Except.error e => Except.error e
  | Except.ok (rep, w) =>
  let w := { w with inst := { w.inst with
    m_audioOutCount := rep.count % ULONG_RANGE
    m_audioOuts := fun _ => none } }
  match issue r RemoteCall.getProgramCount w with
  | Except.error e => Except.error e
  | Except.ok (rep, w) =>
  let w := { w with inst := { w.inst with m_programCount := rep.count % ULONG_RANGE } }
  match forLoopE w.inst.m_programCount (constructProgram r) w with
  | Except.error e => Except.error e
  | Except.ok w =>
  Except.ok { w with inst := { w.inst with m_alsaDecoder := decoderOk, m_ok := true } }

/-- The constructor `DSSIVSTPluginInstance::DSSIVSTPluginInstance`.  The
members missing from the initializer list (`m_latencyOut`, `m_alsaDecoder`,
the two MIDI buffers) and the content of freshly allocated program slots
start with whatever `junk` holds. -/
def construct (r : Remote) (decoderOk : Bool) (junk : Instance) (dllName : String)
    (sampleRate : Nat) (mem : HostMem) (heap : StringHeap) (log : List RemoteCall) : World :=
  let init : Instance :=
    { junk with
      m_sampleRate := sampleRate
      m_lastSampleCount := 0
      m_controlPorts := fun _ => none
      m_controlPortsSaved := fun _ => 0
      m_controlPortCount := 0
      m_audioIns := fun _ => none
      m_audioInCount := 0
      m_audioOuts := fun _ => none
      m_audioOutCount := 0
      m_programCount := 0
      m_pendingProgram := false
      m_plugin := false
      m_ok := false }
  match constructTry r decoderOk dllName { inst := init, mem := mem, heap := heap, log := log } with
  | Except.ok w => w
  | Except.error w =>
    { w with inst := { w.inst with
        m_ok := false
        m_plugin := false
        m_controlPorts := fun _ => none
        m_controlPortsSaved := fun _ => 0
        m_audioIns := fun _ => none
        m_audioOuts := fun _ => none } }

/-- The static `DSSIVSTPlugin::instantiate`: the constructor is handed
`descriptor->Label`. -/
def instantiate (r : Remote) (decoderOk : Bool) (junk : Instance) (descriptor : LADSPA_Descriptor)
    (sampleRate : Nat) (mem : HostMem) (heap : StringHeap) (log : List RemoteCall) : World :=
  construct r decoderOk junk descriptor.Label sampleRate mem heap log

/-- The method `activate` (lines 218-228). -/
def activate (r : Remote) (w : World) : World :=
  if w.inst.m_ok then
    match issue r (RemoteCall.setSampleRate w.inst.m_sampleRate) w with
    | Except.ok (_, w1) => w1
    | Except.error w1 => markFailed w1
  else w

/-- The method `deactivate` (lines 230-240). -/
def deactivate (r : Remote) (w : World) : World :=
  if w.inst.m_ok then
    match issue r RemoteCall.reset w with
    | Except.ok (_, w1) => w1
    | Except.error w1 => markFailed w1
  else w

/-- The method `connectPort` (lines 242-276). -/
def connectPort (port : Nat) (location : DataPtr) (w : World) : World :=
  if !w.inst.m_ok then w
  else if port < w.inst.m_controlPortCount then
    { w with inst := { w.inst with
        m_controlPorts := Function.update w.inst.m_controlPorts port location } }
  else
    let port := usub port w.inst.m_controlPortCount
    if port < w.inst.m_audioInCount then
      { w with inst := { w.inst with
          m_audioIns := Function.update w.inst.m_audioIns port location } }
    else
      let port := usub port w.inst.m_audioInCount
      if port < w.inst.m_audioOutCount then
        { w with inst := { w.inst with
            m_audioOuts := Function.update w.inst.m_audioOuts port location } }
      else
        let port := usub port w.inst.m_audioOutCount
        if port < 1 then
          let w1 := { w with inst := { w.inst with m_latencyOut := location } }
          match w1.inst.m_latencyOut with
          | some a => { w1 with mem := Function.update w1.mem a 0 }
          | none => w1
        else w

/-- Body of the loop of `selectProgram` (lines 293-297). -/
def selectProgramPort (r : Remote) (i : Nat) (w : World) : Except World World :=
  match w.inst.m_controlPorts i with
  | none => Except.ok w
  | some a =>
    match issue r (RemoteCall.getParameter i) w with
    | Except.error e => Except.error e
    | Except.ok (rep, w1) =>
      let w2 := { w1 with mem := Function.update w1.mem a rep.value }
      Except.ok { w2 with inst := { w2.inst with
        m_controlPortsSaved := Function.update w2.inst.m_controlPortsSaved i (w2.mem a) } }

/-- The method `selectProgram` (lines 286-298).  It has no `try` block:
`Except.error` is a `RemotePluginClosedException` that leaves the method
and reaches the caller. -/
def selectProgram (r : Remote) (bank program : Nat) (w : World) : Except World World :=
  if bank ≠ 0 ∨ program ≥ w.inst.m_programCount then Except.ok w
  else
    match issue r (RemoteCall.setCurrentProgram program) w with
    | Except.error e => Except.error e
    | Except.ok (_, w1) => forLoopE w1.inst.m_controlPortCount (selectProgramPort r) w1

/-- First step of `run` (lines 305-309). -/
def runResize (r : Remote) (sampleCount : Nat) (w : World) : Except World World :=
  if sampleCount ≠ w.inst.m_lastSampleCount then
    match issue r (RemoteCall.setBufferSize sampleCount) w with
    | Except.error e => Except.error e
    | Except.ok (_, w1) =>
      let w2 := { w1 with inst := { w1.inst with m_lastSampleCount := sampleCount } }
      match w2.inst.m_latencyOut with
      | some a => Except.ok { w2 with mem := Function.update w2.mem a (sampleCount : LADSPA_Data) }
      | none => Except.ok w2
  else Except.ok w

/-- Body of the loop over the control ports in `run` (lines 311-319). -/
def runParameter (r : Remote) (i : Nat) (w : World) : Except World World :=
  match w.inst.m_controlPorts i with
  | none => Except.ok w
  | some a =>
    if w.inst.m_controlPortsSaved i ≠ w.mem a then
      match issue r (RemoteCall.setParameter i (w.mem a)) w with
      | Except.error e => Except.error e
      | Except.ok (_, w1) =>
        Except.ok { w1 with inst := { w1.inst with
          m_controlPortsSaved := Function.update w1.inst.m_controlPortsSaved i (w1.mem a) } }
    else Except.ok w

/-- The call `m_plugin->process(m_audioIns, m_audioOuts)` (line 321). -/
def runProcess (r : Remote) (w : World) : Except World World :=
  match issue r (RemoteCall.process
      ((List.range w.inst.m_audioInCount).map w.inst.m_audioIns)
      ((List.range w.inst.m_audioOutCount).map w.inst.m_audioOuts)) w with
  | Except.error e => Except.error e
  | Except.ok (_, w1) => Except.ok w1

/-- The `try` block of `run` (lines 305-321). -/
def runTry (r : Remote) (sampleCount : Nat) (w : World) : Except World World :=
  match runResize r sampleCount w with
  | Except.error e => Except.error e
  | Except.ok w1 =>
    match forLoopE w1.inst.m_controlPortCount (runParameter r) w1 with
    | Except.error e => Except.error e
    | Except.ok w2 => runProcess r w2

/-- The method `run` (lines 300-327). -/
def run (r : Remote) (sampleCount : Nat) (w : World) : World :=
  if w.inst.m_ok then
    match runTry r sampleCount w with
    | Except.ok w1 => w1
    | Except.error w1 => markFailed w1
  else w

/-- A catalog entry with two parameters, two audio inputs and one audio
output, used to evaluate the definitions. -/
def sampleRecord : PluginRecord :=
  { dllName := "my plugin.dll"
    pluginName := "My Plugin"
    vendorName := "Vendor"
    parameters := 2
    inputs := 2
    outputs := 1
    parameterNames := fun i => "param" ++ toString i
    parameterDefaults := fun i => if i = 0 then 0 else 1 / 2
    isSynth := false }

/-- Freshly allocated port arrays, zero-filled. -/
def zeroTables : PortTables :=
  { ports := fun _ => 0
    names := fun _ => ""
    hints := fun _ => { HintDescriptor := 0, LowerBound := 0, UpperBound := 0 } }

/-- The macro `LADSPA_IS_HINT_DEFAULT_...` of `ladspa.h`, for the default
value `v`: the default field of the hint descriptor `h` holds `v`. -/
def isHintDefault (v h : Nat) : Bool :=
  h &&& LADSPA_HINT_DEFAULT_MASK == v

/-- The five default hints the constructor chooses from. -/
def defaultHints : List Nat :=
  [LADSPA_HINT_DEFAULT_MINIMUM, LADSPA_HINT_DEFAULT_LOW, LADSPA_HINT_DEFAULT_MIDDLE,
    LADSPA_HINT_DEFAULT_HIGH, LADSPA_HINT_DEFAULT_MAXIMUM]

/-- An instance whose members are all zero: the content of the object before
the constructor runs. -/
def zeroInstance : Instance :=
  { m_sampleRate := 0
    m_lastSampleCount := 0
    m_controlPorts := fun _ => none
    m_controlPortsSaved := fun _ => 0
    m_controlPortCount := 0
    m_audioIns := fun _ => none
    m_audioInCount := 0
    m_audioOuts := fun _ => none
    m_audioOutCount := 0
    m_latencyOut := none
    m_programs := fun _ => { Bank := 0, Program := 0, Name := 0 }
    m_programCount := 0
    m_decodeBuffer := fun _ => 0
    m_frameOffsetsBuffer := fun _ => 0
    m_alsaDecoder := false
    m_pendingProgram := false
    m_plugin := false
    m_ok := false }

/-- A remote side that never closes: a plugin with two parameters, two
inputs, one output and one program, whose parameter `i` reads `i + 10`. -/
def sampleRemote : Remote := fun log =>
  { closed := false
    value :=
      match log.getLast? with
      | some (RemoteCall.getParameter i) => ((i + 10 : Nat) : LADSPA_Data)
      | _ => 0
    count :=
      match log.getLast? with
      | some RemoteCall.getParameterCount => 2
      | some RemoteCall.getInputCount => 2
      | some RemoteCall.getOutputCount => 1
      | some RemoteCall.getProgramCount => 1
      | _ => 0
    name := "Init" }

/-- A remote side that closes the channel on every call after the first
`limit` calls, and otherwise answers like `sampleRemote`. -/
def closingRemote (limit : Nat) : Remote := fun log =>
  { sampleRemote log with closed := decide (limit < log.length) }

/-- Host memory with every cell zero. -/
def zeroMem : HostMem := fun _ => 0

/-- An empty string heap. -/
def emptyHeap : StringHeap := { cells := fun _ => none, next := 0 }

/-- The adapter right after a successful construction against
`sampleRemote`. -/
def sampleWorld : World :=
  construct sampleRemote true zeroInstance "my plugin.dll" 44100 zeroMem emptyHeap []

/-! ## MIDI events (`runSynth`) -/

/-- The fields of an ALSA sequencer event the adapter reads, and the payload
only the decoder looks at. -/
structure snd_seq_event_t where
  type : Nat
  tick : Nat
  data : List Nat

/-- What one call of `snd_midi_event_decode` does: the value it returns and
the bytes it stores at the destination. -/
structure Decoded where
  count : Int
  bytes : List Nat

/-- The library call `snd_midi_event_decode`, as a function of the event and
of the space it is offered. -/
abbrev Decoder := snd_seq_event_t → Nat → Decoded

/-- The bytes `bytes` stored from position `index` on. -/
def writeBytes (buf : Nat → Nat) (index : Nat) (bytes : List Nat) : Nat → Nat :=
  fun j => if index ≤ j ∧ j < index + bytes.length then bytes.getD (j - index) 0 else buf j

/-- The conversion of the `unsigned int` tick to the `int` of the frame
offset buffer. -/
def tickToInt (t : Nat) : Int :=
  if t % 4294967296 < 2147483648 then (t % 4294967296 : Nat) else (t % 4294967296 : Nat) - 4294967296

/-- The local variables `i` and `index` of `runSynth` and the two buffers its
loop writes. -/
structure DecodeState where
  i : Nat
  index : Nat
  m_decodeBuffer : Nat → Nat
  m_frameOffsetsBuffer : Nat → Int

/-- The loop `while (count++ < 3) m_decodeBuffer[index++] = 0` (lines
359-361), which runs `3 - count` times; the argument is that number. -/
def padZeros (buf : Nat → Nat) (index : Nat) : Nat → (Nat → Nat) × Nat
  | 0 => (buf, index)
  | k + 1 => padZeros (Function.update buf index 0) (index + 1) k

/-- Body of the loop over the events, after the `break` test (lines
345-362). -/
def decodeEvent (dec : Decoder) (ev : snd_seq_event_t) (st : DecodeState) : DecodeState :=
  let offs := Function.update st.m_frameOffsetsBuffer st.i (tickToInt ev.tick)
  let d := dec ev (MIDI_BUFFER_SIZE - st.index)
  let buf := writeBytes st.m_decodeBuffer st.index d.bytes
  if d.count < 0 then
    { st with i := st.i + 1, m_decodeBuffer := buf, m_frameOffsetsBuffer := offs }
  else if d.count = 0 ∨ d.count > 3 then
    { st with i := st.i + 1, m_decodeBuffer := buf, m_frameOffsetsBuffer := offs }
  else
    let p := padZeros buf (st.index + d.count.toNat) (3 - d.count.toNat)
    { i := st.i + 1, index := p.2, m_decodeBuffer := p.1, m_frameOffsetsBuffer := offs }

/-- The loop over the events (lines 339-363), with its `break`. -/
def decodeLoop (dec : Decoder) : List snd_seq_event_t → DecodeState → DecodeState
  | [], st => st
  | ev :: rest, st =>
    if st.index ≥ MIDI_BUFFER_SIZE - 4 then st
    else decodeLoop dec rest (decodeEvent dec ev st)

/-- The state in which the loop of `runSynth` starts: `i` and `index` are zero
(lines 336-339). -/
def decodeStart (w : World) : DecodeState :=
  { i := 0
    index := 0
    m_decodeBuffer := w.inst.m_decodeBuffer
    m_frameOffsetsBuffer := w.inst.m_frameOffsetsBuffer }

/-- The `try` block of `runSynth` (lines 334-368). -/
def runSynthTry (r : Remote) (dec : Decoder) (events : Nat → snd_seq_event_t)
    (eventCount : Nat) (w : World) : Except World World :=
  if w.inst.m_alsaDecoder then
    let st := decodeLoop dec ((List.range eventCount).map events) (decodeStart w)
    let w1 := { w with inst := { w.inst with
      m_decodeBuffer := st.m_decodeBuffer
      m_frameOffsetsBuffer := st.m_frameOffsetsBuffer } }
    if st.index > 0 then
      match issue r (RemoteCall.sendMIDIData
          ((List.range MIDI_BUFFER_SIZE).map st.m_decodeBuffer)
          ((List.range (MIDI_BUFFER_SIZE / 3)).map st.m_frameOffsetsBuffer) st.i) w1 with
      | Except.error e => Except.error e
      | Except.ok (_, w2) => Except.ok w2
    else Except.ok w1
  else Except.ok w

/-- The method `runSynth` (lines 329-374). -/
def runSynth (r : Remote) (dec : Decoder) (sampleCount : Nat) (events : Nat → snd_seq_event_t)
    (eventCount : Nat) (w : World) : World :=
  match runSynthTry r dec events eventCount w with
  | Except.ok w1 => run r sampleCount w1
  | Except.error w1 => run r sampleCount (markFailed w1)

/-- A decoder for the samples: the payload of the event is its MIDI
encoding, stored as far as space is offered; an empty payload is reported as
an error. -/
def sampleDecoder : Decoder := fun ev limit =>
  if ev.data = [] then { count := -2, bytes := [] }
  else { count := ((ev.data.take limit).length : Nat), bytes := ev.data.take limit }

/-- A note-on event at tick 7 and a program change at tick 9. -/
def sampleEvents : Nat → snd_seq_event_t := fun i =>
  if i = 0 then { type := 6, tick := 7, data := [144, 60, 100] }
  else { type := 11, tick := 9, data := [192, 5] }

/-- The sample adapter, constructed against a remote side that closes the
channel after six calls, which are the calls of the constructor. -/
def closingWorld : World :=
  construct (closingRemote 6) true zeroInstance "my plugin.dll" 44100 zeroMem emptyHeap []

/-- The adapter above after a `run` during which the channel closed. -/
def failedWorld : World := run (closingRemote 6) 64 closingWorld

/-- The event count of a `sendMIDIData` call. -/
def sentEvents : RemoteCall → Option Nat
  | RemoteCall.sendMIDIData _ _ events => some events
  | _ => none

/-- Modelled from the spec: the restoration of the identifying name from the
label, "placeholder character restored to space" (section 4.2).  The code
that performs it is not in `dssi-vst.cpp`, whose constructor hands the label
on as it is. -/
def restoreName (label : String) : String :=
  String.mk (label.data.map (fun c => if c = '*' then ' ' else c))

/-! ## Vocabulary for the statements about the event loop -/

/-- The decoder reports, when it reports no error, the number of bytes it
stored. -/
def Honest (dec : Decoder) : Prop :=
  ∀ ev limit, 0 ≤ (dec ev limit).count →
    ((dec ev limit).bytes.length : Int) = (dec ev limit).count

/-- The three bytes kept for an event: the decoded bytes, then zeros. -/
def padded (d : Decoded) : List Nat :=
  d.bytes ++ List.replicate (3 - d.bytes.length) 0

/-- The events the loop stores, as their three bytes each, in order: those
that are reached before the loop stops and decode to one, two or three
bytes.  `index` is the write index the loop starts with. -/
def storedEvents (dec : Decoder) : List snd_seq_event_t → Nat → List (List Nat)
  | [], _ => []
  | ev :: rest, index =>
    if index ≥ MIDI_BUFFER_SIZE - 4 then []
    else if 1 ≤ (dec ev (MIDI_BUFFER_SIZE - index)).count ∧
        (dec ev (MIDI_BUFFER_SIZE - index)).count ≤ 3 then
      padded (dec ev (MIDI_BUFFER_SIZE - index)) :: storedEvents dec rest (index + 3)
    else storedEvents dec rest index

/-! ## Vocabulary for the statements about `run` -/

/-- The world an attempt ends in, whether it returned or threw. -/
def outcome : Except World World → World
  | Except.ok w => w
  | Except.error w => w

/-- The call is a `setBufferSize`. -/
def isSetBufferSize : RemoteCall → Bool
  | RemoteCall.setBufferSize _ => true
  | _ => false

/-- The call is a `setParameter`. -/
def isSetParameter : RemoteCall → Bool
  | RemoteCall.setParameter _ _ => true
  | _ => false

/-- The world after the first step of `run` when the resize, if one is due,
succeeds. -/
def resized (sampleCount : Nat) (w : World) : World :=
  if sampleCount ≠ w.inst.m_lastSampleCount then
    { w with
      log := w.log ++ [RemoteCall.setBufferSize sampleCount]
      inst := { w.inst with m_lastSampleCount := sampleCount }
      mem :=
        match w.inst.m_latencyOut with
        | some a => Function.update w.mem a (sampleCount : LADSPA_Data)
        | none => w.mem }
  else w

/-- Control port `i` is connected and the value in its cell differs from
its shadow value. -/
def differs (w : World) (i : Nat) : Bool :=
  match w.inst.m_controlPorts i with
  | none => false
  | some a => decide (w.inst.m_controlPortsSaved i ≠ w.mem a)

/-- The `setParameter` call due for control port `i`, if any. -/
def changedCall (w : World) (i : Nat) : List RemoteCall :=
  match w.inst.m_controlPorts i with
  | none => []
  | some a =>
    if w.inst.m_controlPortsSaved i ≠ w.mem a then [RemoteCall.setParameter i (w.mem a)] else []

/-- The `setParameter` calls due for the control ports below `n`, in order. -/
def changedCalls (w : World) : Nat → List RemoteCall
  | 0 => []
  | n + 1 => changedCalls w n ++ changedCall w n

/-- The shadow values once the control ports below `n` have been looked at. -/
def savedAfter (w : World) (n : Nat) : Nat → LADSPA_Data := fun i =>
  if i < n then
    match w.inst.m_controlPorts i with
    | some a => w.mem a
    | none => w.inst.m_controlPortsSaved i
  else w.inst.m_controlPortsSaved i

/-- The `process` call `run` ends with. -/
def processCall (w : World) : RemoteCall :=
  RemoteCall.process
    ((List.range w.inst.m_audioInCount).map w.inst.m_audioIns)
    ((List.range w.inst.m_audioOutCount).map w.inst.m_audioOuts)

/-- Every connected control port below the port count has its shadow value
equal to the value in its cell. -/
def Synced (w : World) : Prop :=
  ∀ i a, i < w.inst.m_controlPortCount → w.inst.m_controlPorts i = some a →
    w.inst.m_controlPortsSaved i = w.mem a

/-- The world once the loop of `run` has dealt with the control ports below
`n` without a failure, having started in `w`. -/
def scanned (w : World) (n : Nat) : World :=
  { w with
    log := w.log ++ changedCalls w n
    inst := { w.inst with m_controlPortsSaved := savedAfter w n } }

/-- The sample adapter with control port 0 connected to cell 5. -/
def oneControlWorld : World := connectPort 0 (some 5) sampleWorld

/-- The sample adapter with control port 0 and the latency port (port 5)
both connected to cell 5. -/
def sharedCellWorld : World := connectPort 5 (some 5) oneControlWorld

/-! ## Vocabulary for the statements about `selectProgram` -/

/-- The `getParameter` calls for the connected control ports below `k`, in
order. -/
def fetchCalls (w : World) : Nat → List RemoteCall
  | 0 => []
  | k + 1 =>
    fetchCalls w k ++
      (match w.inst.m_controlPorts k with
        | some _ => [RemoteCall.getParameter k]
        | none => [])

/-- The value the remote side returns for connected control port `i` when
`selectProgram` asks for it after switching to `program`. -/
def fetched (r : Remote) (w : World) (program i : Nat) : LADSPA_Data :=
  (r (w.log ++ [RemoteCall.setCurrentProgram program] ++ fetchCalls w (i + 1))).value

/-- The attempt returned rather than threw. -/
def returned : Except World World → Bool
  | Except.ok _ => true
  | Except.error _ => false

/-- The sample adapter with control ports 0 and 1 both connected to cell 5. -/
def twoOnOneCellWorld : World := connectPort 1 (some 5) oneControlWorld

/-! ## Programs (`getProgram`) -/

/-- The library call `strdup` on the string at address `a`; `none` when no
string is allocated there, which is undefined behaviour in C. -/
def strdupAt (h : StringHeap) (a : Nat) : Option (Nat × StringHeap) :=
  match h.cells a with
  | some s => some (strdup h s)
  | none => none

/-- The method `getProgram` (lines 278-284).  The result is `none` when the
`strdup` reads a string that is not allocated; otherwise it is the returned
pointer (`none` for null, else the content of `*m_programs[index]` at the
return) and the world after the call. -/
def getProgram (index : Nat) (w : World) : Option (Option DSSI_Program_Descriptor × World) :=
  if index ≥ w.inst.m_programCount then some (none, w)
  else
    match strdupAt w.heap (w.inst.m_programs index).Name with
    | none => none
    | some (a, h) =>
      some (some { w.inst.m_programs index with Name := a },
        { w with
          heap := h
          inst := { w.inst with
            m_programs := Function.update w.inst.m_programs index
              { w.inst.m_programs index with Name := a } } })

/-- The host calls `free` on the string at address `a`. -/
def hostFree (a : Nat) (w : World) : World :=
  { w with heap := { w.heap with cells := Function.update w.heap.cells a none } }

/-- A series of `getProgram` calls, for the indices given, the first first;
`none` when one of them reads a string that is not allocated. -/
def getPrograms : List Nat → World → Option World
  | [], w => some w
  | index :: rest, w =>
    match getProgram index w with
    | none => none
    | some (_, w1) => getPrograms rest w1

/-- The five calls the constructor issues before it asks for the program
names. -/
def constructCalls (dllName : String) : List RemoteCall :=
  [RemoteCall.create dllName, RemoteCall.getParameterCount, RemoteCall.getInputCount,
    RemoteCall.getOutputCount, RemoteCall.getProgramCount]

/-- The name the remote side reports for program `i` during a construction
that starts with the call history `log`. -/
def reportedName (r : Remote) (log : List RemoteCall) (dllName : String) (i : Nat) : String :=
  (r (log ++ constructCalls dllName ++ (List.range (i + 1)).map RemoteCall.getProgramName)).name

/-- The program table is in order: every program below the program count
has bank 0, its own number, and a name that is allocated, below the next
address of the allocator, and reads `names i`. -/
def ProgramsIntact (w : World) (names : Nat → String) : Prop :=
  ∀ i, i < w.inst.m_programCount →
    (w.inst.m_programs i).Bank = 0 ∧ (w.inst.m_programs i).Program = i ∧
      (w.inst.m_programs i).Name < w.heap.next ∧
      w.heap.cells (w.inst.m_programs i).Name = some (names i)

/-- The address in the `Name` field of the descriptor `getProgram` returned,
if it returned one. -/
def returnedName : Option (Option DSSI_Program_Descriptor × World) → Option Nat
  | some (some d, _) => some d.Name
  | _ => none

/-- The world after a `getProgram` call that has a defined result. -/
def afterGetProgram (index : Nat) (w : World) : World :=
  match getProgram index w with
  | some (_, w1) => w1
  | none => w

/-! ## Operations as data -/

/-- The calls a host can make on an instance after construction. -/
inductive Operation where
  | connectPort (port : Nat) (location : DataPtr)
  | activate
  | deactivate
  | run (sampleCount : Nat)
  | runSynth (sampleCount : Nat) (events : Nat → snd_seq_event_t) (eventCount : Nat)
  | getProgram (index : Nat)
  | selectProgram (bank program : Nat)

/-- The world after one operation, whether it returned or threw; `none` when
`getProgram` reads a string that is not allocated. -/
def perform (r : Remote) (dec : Decoder) : Operation → World → Option World
  | Operation.connectPort port location, w => some (connectPort port location w)
  | Operation.activate, w => some (activate r w)
  | Operation.deactivate, w => some (deactivate r w)
  | Operation.run sampleCount, w => some (run r sampleCount w)
  | Operation.runSynth sampleCount events eventCount, w =>
    some (runSynth r dec sampleCount events eventCount w)
  | Operation.getProgram index, w =>
    match getProgram index w with
    | none => none
    | some (_, w1) => some w1
  | Operation.selectProgram bank program, w => some (outcome (selectProgram r bank program w))

/-- The worlds a series of operations passes through, the starting world
first; the series ends early when an operation has no defined result. -/
def trace (r : Remote) (dec : Decoder) : List Operation → World → List World
  | [], w => [w]
  | op :: rest, w =>
    match perform r dec op w with
    | none => [w]
    | some w1 => w :: trace r dec rest w1

/-! ## The event loop with the buffer size as a parameter -/

/-- The body of the event loop for a decode buffer of `size` bytes, which is
`decodeEvent` with `size` in the place of `MIDI_BUFFER_SIZE`. -/
def decodeEventAt (size : Nat) (dec : Decoder) (ev : snd_seq_event_t) (st : DecodeState) :
    DecodeState :=
  let offs := Function.update st.m_frameOffsetsBuffer st.i (tickToInt ev.tick)
  let d := dec ev (size - st.index)
  let buf := writeBytes st.m_decodeBuffer st.index d.bytes
  if d.count < 0 then
    { st with i := st.i + 1, m_decodeBuffer := buf, m_frameOffsetsBuffer := offs }
  else if d.count = 0 ∨ d.count > 3 then
    { st with i := st.i + 1, m_decodeBuffer := buf, m_frameOffsetsBuffer := offs }
  else
    let p := padZeros buf (st.index + d.count.toNat) (3 - d.count.toNat)
    { i := st.i + 1, index := p.2, m_decodeBuffer := p.1, m_frameOffsetsBuffer := offs }

/-- The event loop for a decode buffer of `size` bytes: the definition
`decodeLoop` with `size` in the place of `MIDI_BUFFER_SIZE`. -/
def decodeLoopAt (size : Nat) (dec : Decoder) : List snd_seq_event_t → DecodeState → DecodeState
  | [], st => st
  | ev :: rest, st =>
    if st.index ≥ size - 4 then st
    else decodeLoopAt size dec rest (decodeEventAt size dec ev st)

/-- The call is a `process`. -/
def isProcess : RemoteCall → Bool
  | RemoteCall.process _ _ => true
  | _ => false

/-- The decoder stores no more bytes than the space it is offered. -/
def WithinLimit (dec : Decoder) : Prop :=
  ∀ ev limit, (dec ev limit).bytes.length ≤ limit

/-- Every event of the list decodes to one, two or three bytes when the
decoder is offered space for three bytes or more. -/
def AllStored (dec : Decoder) (events : List snd_seq_event_t) : Prop :=
  ∀ ev, ev ∈ events → ∀ limit, 3 ≤ limit →
    1 ≤ (dec ev limit).count ∧ (dec ev limit).count ≤ 3

/-! ## Sample events for the event loop -/

/-- An event the sample decoder rejects (empty payload) at tick 3, followed
by note-on events at tick 7. -/
def droppedThenNotes : Nat → snd_seq_event_t := fun i =>
  if i = 0 then { type := 0, tick := 3, data := [] }
  else { type := 6, tick := 7, data := [144, 60, 100] }

/-- Events the sample decoder rejects, all at tick 5. -/
def rejectedEvents : Nat → snd_seq_event_t := fun _ =>
  { type := 0, tick := 5, data := [] }

/-- Note-on events, all at tick 7. -/
def noteEvents : Nat → snd_seq_event_t := fun _ =>
  { type := 6, tick := 7, data := [144, 60, 100] }

/-! ## Descriptor synthesis: the port table -/

/-- A loop that stores `f i` at index `i + off` of an array, for `i < n`. -/
theorem forLoop_update {α : Type} (f : Nat → α) (off : Nat) (a : Nat → α) (n k : Nat) :
    forLoop n (fun i b => Function.update b (i + off) (f i)) a k =
      if off ≤ k ∧ k < off + n then f (k - off) else a k := by
  induction n with
  | zero =>
    have h : ¬ (off ≤ k ∧ k < off + 0) := by omega
    simp only [forLoop, h, if_false]
  | succ n ih =>
    simp only [forLoop, Function.update_apply, ih]
    by_cases h1 : k = n + off
    · have h : off ≤ k ∧ k < off + (n + 1) := by omega
      have h3 : k - off = n := by omega
      simp only [h1, if_true] at *
      simp only [h, h3, if_true, and_self]
    · by_cases h2 : off ≤ k ∧ k < off + n
      · have h : off ≤ k ∧ k < off + (n + 1) := by omega
        simp only [h1, h2, h, if_true, if_false, and_self]
      · have h : ¬ (off ≤ k ∧ k < off + (n + 1)) := by omega
        simp only [h1, h2, h, if_false]

theorem forLoop_parameterPort_ports (rec : PluginRecord) (t : PortTables) (n : Nat) :
    (forLoop n (parameterPort rec) t).ports =
      forLoop n (fun i b => Function.update b (i + 0)
        (LADSPA_PORT_INPUT ||| LADSPA_PORT_CONTROL)) t.ports := by
  induction n with
  | zero => rfl
  | succ n ih => simp only [forLoop, parameterPort, ih, Nat.add_zero]

theorem forLoop_parameterPort_names (rec : PluginRecord) (t : PortTables) (n : Nat) :
    (forLoop n (parameterPort rec) t).names =
      forLoop n (fun i b => Function.update b (i + 0) (rec.parameterNames i)) t.names := by
  induction n with
  | zero => rfl
  | succ n ih => simp only [forLoop, parameterPort, ih, Nat.add_zero]

theorem forLoop_inputPort_ports (rec : PluginRecord) (t : PortTables) (n : Nat) :
    (forLoop n (inputPort rec) t).ports =
      forLoop n (fun i b => Function.update b (i + rec.parameters)
        (LADSPA_PORT_INPUT ||| LADSPA_PORT_AUDIO)) t.ports := by
  induction n with
  | zero => rfl
  | succ n ih => simp only [forLoop, inputPort, ih]

theorem forLoop_inputPort_names (rec : PluginRecord) (t : PortTables) (n : Nat) :
    (forLoop n (inputPort rec) t).names =
      forLoop n (fun i b => Function.update b (i + rec.parameters)
        ("in" ++ toString (i + 1))) t.names := by
  induction n with
  | zero => rfl
  | succ n ih => simp only [forLoop, inputPort, ih]

theorem forLoop_outputPort_ports (rec : PluginRecord) (t : PortTables) (n : Nat) :
    (forLoop n (outputPort rec) t).ports =
      forLoop n (fun i b => Function.update b (i + (rec.inputs + rec.parameters))
        (LADSPA_PORT_OUTPUT ||| LADSPA_PORT_AUDIO)) t.ports := by
  induction n with
  | zero => rfl
  | succ n ih => simp only [forLoop, outputPort, ih, Nat.add_assoc]

theorem forLoop_outputPort_names (rec : PluginRecord) (t : PortTables) (n : Nat) :
    (forLoop n (outputPort rec) t).names =
      forLoop n (fun i b => Function.update b (i + (rec.inputs + rec.parameters))
        ("out" ++ toString (i + 1))) t.names := by
  induction n with
  | zero => rfl
  | succ n ih => simp only [forLoop, outputPort, ih, Nat.add_assoc]

/-- The descriptor word of port `k` in the table built for `rec`. -/
theorem buildDescriptor_ports (fresh : PortTables) (p : Nat) (rec : PluginRecord) (k : Nat) :
    (buildDescriptor fresh p rec).PortDescriptors k =
      if k = rec.parameters + rec.inputs + rec.outputs then
        LADSPA_PORT_OUTPUT ||| LADSPA_PORT_CONTROL
      else if rec.parameters + rec.inputs ≤ k ∧ k < rec.parameters + rec.inputs + rec.outputs then
        LADSPA_PORT_OUTPUT ||| LADSPA_PORT_AUDIO
      else if rec.parameters ≤ k ∧ k < rec.parameters + rec.inputs then
        LADSPA_PORT_INPUT ||| LADSPA_PORT_AUDIO
      else if k < rec.parameters then LADSPA_PORT_INPUT ||| LADSPA_PORT_CONTROL
      else fresh.ports k := by
  simp only [buildDescriptor, latencyPort, Function.update_apply, forLoop_outputPort_ports,
    forLoop_inputPort_ports, forLoop_parameterPort_ports, forLoop_update, Nat.add_sub_cancel]
  have e1 : rec.inputs + rec.parameters = rec.parameters + rec.inputs := Nat.add_comm _ _
  have e2 : (0 ≤ k ∧ k < 0 + rec.parameters) ↔ k < rec.parameters := by omega
  simp only [e1, e2]

/-- The name of port `k` in the table built for `rec`. -/
theorem buildDescriptor_names (fresh : PortTables) (p : Nat) (rec : PluginRecord) (k : Nat) :
    (buildDescriptor fresh p rec).PortNames k =
      if k = rec.parameters + rec.inputs + rec.outputs then "_latency"
      else if rec.parameters + rec.inputs ≤ k ∧ k < rec.parameters + rec.inputs + rec.outputs then
        "out" ++ toString (k - (rec.parameters + rec.inputs) + 1)
      else if rec.parameters ≤ k ∧ k < rec.parameters + rec.inputs then
        "in" ++ toString (k - rec.parameters + 1)
      else if k < rec.parameters then rec.parameterNames k
      else fresh.names k := by
  simp only [buildDescriptor, latencyPort, Function.update_apply, forLoop_outputPort_names,
    forLoop_inputPort_names, forLoop_parameterPort_names, forLoop_update, Nat.add_sub_cancel]
  have e1 : rec.inputs + rec.parameters = rec.parameters + rec.inputs := Nat.add_comm _ _
  have e2 : (0 ≤ k ∧ k < 0 + rec.parameters) ↔ k < rec.parameters := by omega
  simp only [e1, e2, Nat.sub_zero]

/-- The kinds of the ports of the table built for `rec`, by position. -/
theorem buildDescriptor_kinds (fresh : PortTables) (p : Nat) (rec : PluginRecord) :
    (∀ k, k < rec.parameters →
      (buildDescriptor fresh p rec).PortDescriptors k =
        LADSPA_PORT_INPUT ||| LADSPA_PORT_CONTROL) ∧
    (∀ k, k < rec.inputs →
      (buildDescriptor fresh p rec).PortDescriptors (rec.parameters + k) =
        LADSPA_PORT_INPUT ||| LADSPA_PORT_AUDIO) ∧
    (∀ k, k < rec.outputs →
      (buildDescriptor fresh p rec).PortDescriptors (rec.parameters + rec.inputs + k) =
        LADSPA_PORT_OUTPUT ||| LADSPA_PORT_AUDIO) ∧
    (buildDescriptor fresh p rec).PortDescriptors (rec.parameters + rec.inputs + rec.outputs) =
      LADSPA_PORT_OUTPUT ||| LADSPA_PORT_CONTROL := by
  refine ⟨?_, ?_, ?_, ?_⟩
  · intro k hk
    have h1 : k ≠ rec.parameters + rec.inputs + rec.outputs := by omega
    have h2 : ¬ (rec.parameters + rec.inputs ≤ k ∧
        k < rec.parameters + rec.inputs + rec.outputs) := by omega
    have h3 : ¬ (rec.parameters ≤ k ∧ k < rec.parameters + rec.inputs) := by omega
    simp only [buildDescriptor_ports, h1, h2, h3, hk, if_true, if_false]
  · intro k hk
    have h1 : rec.parameters + k ≠ rec.parameters + rec.inputs + rec.outputs := by omega
    have h2 : ¬ (rec.parameters + rec.inputs ≤ rec.parameters + k ∧
        rec.parameters + k < rec.parameters + rec.inputs + rec.outputs) := by omega
    have h3 : rec.parameters ≤ rec.parameters + k ∧
        rec.parameters + k < rec.parameters + rec.inputs := by omega
    simp only [buildDescriptor_ports, h1, h2, h3, if_true, if_false, and_self]
  · intro k hk
    have h1 : rec.parameters + rec.inputs + k ≠ rec.parameters + rec.inputs + rec.outputs := by
      omega
    have h2 : rec.parameters + rec.inputs ≤ rec.parameters + rec.inputs + k ∧
        rec.parameters + rec.inputs + k < rec.parameters + rec.inputs + rec.outputs := by omega
    simp only [buildDescriptor_ports, h1, h2, if_true, if_false, and_self]
  · simp only [buildDescriptor_ports, if_true]

/-- C1: the descriptor built for a catalog entry with P parameters, I audio
inputs and O audio outputs has P+I+O+1 ports: ports 0..P-1 are control inputs
named after the parameters in catalog order, ports P..P+I-1 are audio inputs
named in1..inI, ports P+I..P+I+O-1 are audio outputs named out1..outO, and
port P+I+O is the control output of the latency. -/
theorem C1_port_table (fresh : PortTables) (p : Nat) (rec : PluginRecord) :
    (buildDescriptor fresh p rec).PortCount = rec.parameters + rec.inputs + rec.outputs + 1 ∧
    (∀ k, k < rec.parameters →
      (buildDescriptor fresh p rec).PortDescriptors k =
          LADSPA_PORT_INPUT ||| LADSPA_PORT_CONTROL ∧
        (buildDescriptor fresh p rec).PortNames k = rec.parameterNames k) ∧
    (∀ k, k < rec.inputs →
      (buildDescriptor fresh p rec).PortDescriptors (rec.parameters + k) =
          LADSPA_PORT_INPUT ||| LADSPA_PORT_AUDIO ∧
        (buildDescriptor fresh p rec).PortNames (rec.parameters + k) =
          "in" ++ toString (k + 1)) ∧
    (∀ k, k < rec.outputs →
      (buildDescriptor fresh p rec).PortDescriptors (rec.parameters + rec.inputs + k) =
          LADSPA_PORT_OUTPUT ||| LADSPA_PORT_AUDIO ∧
        (buildDescriptor fresh p rec).PortNames (rec.parameters + rec.inputs + k) =
          "out" ++ toString (k + 1)) ∧
    (buildDescriptor fresh p rec).PortDescriptors (rec.parameters + rec.inputs + rec.outputs) =
      LADSPA_PORT_OUTPUT ||| LADSPA_PORT_CONTROL ∧
    (buildDescriptor fresh p rec).PortNames (rec.parameters + rec.inputs + rec.outputs) =
      "_latency" := by
  refine ⟨rfl, ?_, ?_, ?_, ?_, ?_⟩
  · intro k hk
    have h1 : k ≠ rec.parameters + rec.inputs + rec.outputs := by omega
    have h2 : ¬ (rec.parameters + rec.inputs ≤ k ∧
        k < rec.parameters + rec.inputs + rec.outputs) := by omega
    have h3 : ¬ (rec.parameters ≤ k ∧ k < rec.parameters + rec.inputs) := by omega
    simp only [buildDescriptor_ports, buildDescriptor_names, h1, h2, h3, hk, if_true, if_false,
      and_self]
  · intro k hk
    have h1 : rec.parameters + k ≠ rec.parameters + rec.inputs + rec.outputs := by omega
    have h2 : ¬ (rec.parameters + rec.inputs ≤ rec.parameters + k ∧
        rec.parameters + k < rec.parameters + rec.inputs + rec.outputs) := by omega
    have h3 : rec.parameters ≤ rec.parameters + k ∧
        rec.parameters + k < rec.parameters + rec.inputs := by omega
    have h4 : rec.parameters + k - rec.parameters = k := by omega
    simp only [buildDescriptor_ports, buildDescriptor_names, h1, h2, h3, h4, if_true, if_false,
      and_self]
  · intro k hk
    have h1 : rec.parameters + rec.inputs + k ≠ rec.parameters + rec.inputs + rec.outputs := by
      omega
    have h2 : rec.parameters + rec.inputs ≤ rec.parameters + rec.inputs + k ∧
        rec.parameters + rec.inputs + k < rec.parameters + rec.inputs + rec.outputs := by omega
    have h4 : rec.parameters + rec.inputs + k - (rec.parameters + rec.inputs) = k := by omega
    simp only [buildDescriptor_ports, buildDescriptor_names, h1, h2, h4, if_true, if_false,
      and_self]
  · simp only [buildDescriptor_ports, if_true]
  · simp only [buildDescriptor_names, if_true]

/-- The same facts at the entry with two parameters, two inputs and one
output: six ports in the order param0, param1, in1, in2, out1, latency. -/
theorem C1_port_table_witness :
    (buildDescriptor zeroTables 0 sampleRecord).PortCount = 6 ∧
    (buildDescriptor zeroTables 0 sampleRecord).PortNames 0 = "param0" ∧
    (buildDescriptor zeroTables 0 sampleRecord).PortNames 1 = "param1" ∧
    (buildDescriptor zeroTables 0 sampleRecord).PortNames 2 = "in1" ∧
    (buildDescriptor zeroTables 0 sampleRecord).PortNames 3 = "in2" ∧
    (buildDescriptor zeroTables 0 sampleRecord).PortNames 4 = "out1" ∧
    (buildDescriptor zeroTables 0 sampleRecord).PortNames 5 = "_latency" :=
  have h := C1_port_table zeroTables 0 sampleRecord
  ⟨h.1, (h.2.1 0 (by decide)).2, (h.2.1 1 (by decide)).2, (h.2.2.1 0 (by decide)).2,
    (h.2.2.1 1 (by decide)).2, (h.2.2.2.1 0 (by decide)).2, h.2.2.2.2.2⟩

/-! ## Descriptor synthesis: the default hints -/

theorem forLoop_parameterPort_hints (rec : PluginRecord) (t : PortTables) (n : Nat) :
    (forLoop n (parameterPort rec) t).hints =
      forLoop n (fun i b => Function.update b (i + 0)
        { HintDescriptor :=
            (LADSPA_HINT_BOUNDED_BELOW ||| LADSPA_HINT_BOUNDED_ABOVE) |||
              defaultHint (rec.parameterDefaults i)
          LowerBound := 0
          UpperBound := 1 }) t.hints := by
  induction n with
  | zero => rfl
  | succ n ih => simp only [forLoop, parameterPort, ih, Nat.add_zero]

theorem forLoop_inputPort_hints (rec : PluginRecord) (t : PortTables) (n k : Nat)
    (hk : k < rec.parameters) : (forLoop n (inputPort rec) t).hints k = t.hints k := by
  induction n with
  | zero => rfl
  | succ n ih =>
    have h : k ≠ n + rec.parameters := by omega
    simp only [forLoop, inputPort, Function.update_apply, h, if_false, ih]

theorem forLoop_outputPort_hints (rec : PluginRecord) (t : PortTables) (n k : Nat)
    (hk : k < rec.parameters) : (forLoop n (outputPort rec) t).hints k = t.hints k := by
  induction n with
  | zero => rfl
  | succ n ih =>
    have h : k ≠ n + rec.inputs + rec.parameters := by omega
    simp only [forLoop, outputPort, Function.update_apply, h, if_false, ih]

/-- The range hint of a parameter port in the table built for `rec`. -/
theorem buildDescriptor_hints (fresh : PortTables) (p : Nat) (rec : PluginRecord) (k : Nat)
    (hk : k < rec.parameters) :
    (buildDescriptor fresh p rec).PortRangeHints k =
      { HintDescriptor :=
          (LADSPA_HINT_BOUNDED_BELOW ||| LADSPA_HINT_BOUNDED_ABOVE) |||
            defaultHint (rec.parameterDefaults k)
        LowerBound := 0
        UpperBound := 1 } := by
  have h1 : k ≠ rec.parameters + rec.inputs + rec.outputs + 1 - 1 := by omega
  have h2 : 0 ≤ k ∧ k < 0 + rec.parameters := by omega
  simp only [buildDescriptor, latencyPort, Function.update_apply, h1, if_false,
    forLoop_outputPort_hints rec _ _ k hk, forLoop_inputPort_hints rec _ _ k hk,
    forLoop_parameterPort_hints, forLoop_update, h2, and_self, if_true, Nat.sub_zero]

/-- The chain yields one of the five default hints. -/
theorem defaultHint_mem (d : LADSPA_Data) : defaultHint d ∈ defaultHints := by
  unfold defaultHint defaultHints
  split_ifs <;> simp

/-- Or-ing a default hint onto the two bound bits leaves exactly that hint
in the field of the default. -/
theorem default_field (v : Nat) (hv : v ∈ defaultHints) :
    ((LADSPA_HINT_BOUNDED_BELOW ||| LADSPA_HINT_BOUNDED_ABOVE) ||| v) &&&
        LADSPA_HINT_DEFAULT_MASK = v ∧
      (defaultHints.filter (fun x => isHintDefault x
        ((LADSPA_HINT_BOUNDED_BELOW ||| LADSPA_HINT_BOUNDED_ABOVE) ||| v))).length = 1 := by
  simp only [defaultHints, List.mem_cons, List.mem_singleton, List.not_mem_nil, or_false] at hv
  rcases hv with h | h | h | h | h <;> subst h <;> decide

/-- C9: the default hint of a parameter port follows the five bands of the
catalog default d: minimum below 0.0001, maximum above 0.999, low from 0.0001 up to
but excluding 0.35, high above 0.65 up to and including 0.999, middle from
0.35 to 0.65; exactly one of the five hints is set; the boundary values
0.0001, 0.35, 0.65, 0.999 give low, middle, middle, high. -/
theorem C9_default_hint_bands (fresh : PortTables) (p : Nat) (rec : PluginRecord) (i : Nat)
    (hi : i < rec.parameters) :
    (rec.parameterDefaults i < 1 / 10000 →
      ((buildDescriptor fresh p rec).PortRangeHints i).HintDescriptor &&&
        LADSPA_HINT_DEFAULT_MASK = LADSPA_HINT_DEFAULT_MINIMUM) ∧
    (999 / 1000 < rec.parameterDefaults i →
      ((buildDescriptor fresh p rec).PortRangeHints i).HintDescriptor &&&
        LADSPA_HINT_DEFAULT_MASK = LADSPA_HINT_DEFAULT_MAXIMUM) ∧
    (1 / 10000 ≤ rec.parameterDefaults i → rec.parameterDefaults i < 35 / 100 →
      ((buildDescriptor fresh p rec).PortRangeHints i).HintDescriptor &&&
        LADSPA_HINT_DEFAULT_MASK = LADSPA_HINT_DEFAULT_LOW) ∧
    (65 / 100 < rec.parameterDefaults i → rec.parameterDefaults i ≤ 999 / 1000 →
      ((buildDescriptor fresh p rec).PortRangeHints i).HintDescriptor &&&
        LADSPA_HINT_DEFAULT_MASK = LADSPA_HINT_DEFAULT_HIGH) ∧
    (35 / 100 ≤ rec.parameterDefaults i → rec.parameterDefaults i ≤ 65 / 100 →
      ((buildDescriptor fresh p rec).PortRangeHints i).HintDescriptor &&&
        LADSPA_HINT_DEFAULT_MASK = LADSPA_HINT_DEFAULT_MIDDLE) ∧
    (defaultHints.filter (fun x => isHintDefault x
      ((buildDescriptor fresh p rec).PortRangeHints i).HintDescriptor)).length = 1 ∧
    defaultHint (1 / 10000) = LADSPA_HINT_DEFAULT_LOW ∧
    defaultHint (35 / 100) = LADSPA_HINT_DEFAULT_MIDDLE ∧
    defaultHint (65 / 100) = LADSPA_HINT_DEFAULT_MIDDLE ∧
    defaultHint (999 / 1000) = LADSPA_HINT_DEFAULT_HIGH := by
  have hf := default_field _ (defaultHint_mem (rec.parameterDefaults i))
  rw [buildDescriptor_hints fresh p rec i hi]
  simp only [hf.1]
  refine ⟨?_, ?_, ?_, ?_, ?_, hf.2, ?_, ?_, ?_, ?_⟩
  · intro h
    simp only [defaultHint, h, if_true]
  · intro h
    have h1 : ¬ rec.parameterDefaults i < 1 / 10000 := by
      intro h2; linarith
    simp only [defaultHint, h1, if_false, gt_iff_lt, h, if_true]
  · intro h1 h2
    have h3 : ¬ rec.parameterDefaults i < 1 / 10000 := not_lt.mpr h1
    have h4 : ¬ rec.parameterDefaults i > 999 / 1000 := by
      intro h5; linarith
    simp only [defaultHint, h3, h4, h2, if_false, if_true]
  · intro h1 h2
    have h3 : ¬ rec.parameterDefaults i < 1 / 10000 := by
      intro h5; linarith
    have h4 : ¬ rec.parameterDefaults i > 999 / 1000 := not_lt.mpr h2
    have h5 : ¬ rec.parameterDefaults i < 35 / 100 := by
      intro h5; linarith
    simp only [defaultHint, h3, h4, h5, gt_iff_lt, h1, if_false, if_true]
  · intro h1 h2
    have h3 : ¬ rec.parameterDefaults i < 1 / 10000 := by
      intro h5; linarith
    have h4 : ¬ rec.parameterDefaults i > 999 / 1000 := by
      intro h5; linarith
    have h5 : ¬ rec.parameterDefaults i < 35 / 100 := not_lt.mpr h1
    have h6 : ¬ rec.parameterDefaults i > 65 / 100 := not_lt.mpr h2
    simp only [defaultHint, h3, h4, h5, h6, if_false]
  · norm_num [defaultHint]
  · norm_num [defaultHint]
  · norm_num [defaultHint]
  · norm_num [defaultHint]

/-- C9 at parameter 1 of the sample entry, whose default is one half. -/
theorem C9_default_hint_bands_witness :
    (1 : Nat) < sampleRecord.parameters ∧
    ((buildDescriptor zeroTables 0 sampleRecord).PortRangeHints 1).HintDescriptor &&&
      LADSPA_HINT_DEFAULT_MASK = LADSPA_HINT_DEFAULT_MIDDLE :=
  ⟨by decide,
    (C9_default_hint_bands zeroTables 0 sampleRecord 1 (by decide)).2.2.2.2.1
      (by norm_num [sampleRecord]) (by norm_num [sampleRecord])⟩

/-! ## Port connection -/

/-- No wrap-around: below the range of `unsigned long`, `usub` is the
ordinary difference of a larger and a smaller number. -/
theorem usub_eq (a b : Nat) (ha : a < ULONG_RANGE) (hb : b ≤ a) : usub a b = a - b := by
  unfold usub ULONG_RANGE at *
  omega

/-- C2: on an Ok adapter with P control ports, I audio inputs and O audio
outputs, connectPort(k, p) with k <= P+I+O stores p in exactly one slot and
leaves every other slot as it was: control slot k for k < P, audio-in slot
k-P for P <= k < P+I, audio-out slot k-P-I for P+I <= k < P+I+O, the latency
slot for k = P+I+O (where a non-null p also receives a zero).  In each case
the descriptor built for the same counts gives port k the matching kind. -/
theorem C2_connectPort_slot (w : World) (k : Nat) (location : DataPtr)
    (fresh : PortTables) (q : Nat) (rec : PluginRecord)
    (hok : w.inst.m_ok = true)
    (hk : k < ULONG_RANGE)
    (hP : rec.parameters = w.inst.m_controlPortCount)
    (hI : rec.inputs = w.inst.m_audioInCount)
    (hO : rec.outputs = w.inst.m_audioOutCount) :
    (k < w.inst.m_controlPortCount →
      connectPort k location w =
          { w with inst := { w.inst with
              m_controlPorts := Function.update w.inst.m_controlPorts k location } } ∧
        (buildDescriptor fresh q rec).PortDescriptors k =
          LADSPA_PORT_INPUT ||| LADSPA_PORT_CONTROL) ∧
    (w.inst.m_controlPortCount ≤ k →
      k < w.inst.m_controlPortCount + w.inst.m_audioInCount →
      connectPort k location w =
          { w with inst := { w.inst with
              m_audioIns := Function.update w.inst.m_audioIns
                (k - w.inst.m_controlPortCount) location } } ∧
        (buildDescriptor fresh q rec).PortDescriptors k =
          LADSPA_PORT_INPUT ||| LADSPA_PORT_AUDIO) ∧
    (w.inst.m_controlPortCount + w.inst.m_audioInCount ≤ k →
      k < w.inst.m_controlPortCount + w.inst.m_audioInCount + w.inst.m_audioOutCount →
      connectPort k location w =
          { w with inst := { w.inst with
              m_audioOuts := Function.update w.inst.m_audioOuts
                (k - w.inst.m_controlPortCount - w.inst.m_audioInCount) location } } ∧
        (buildDescriptor fresh q rec).PortDescriptors k =
          LADSPA_PORT_OUTPUT ||| LADSPA_PORT_AUDIO) ∧
    (k = w.inst.m_controlPortCount + w.inst.m_audioInCount + w.inst.m_audioOutCount →
      connectPort k location w =
          { w with
            inst := { w.inst with m_latencyOut := location }
            mem :=
              match location with
              | some a => Function.update w.mem a 0
              | none => w.mem } ∧
        (buildDescriptor fresh q rec).PortDescriptors k =
          LADSPA_PORT_OUTPUT ||| LADSPA_PORT_CONTROL) := by
  refine ⟨?_, ?_, ?_, ?_⟩
  · intro h
    refine ⟨?_, ?_⟩
    · simp only [connectPort, hok, Bool.not_true, Bool.false_eq_true, if_false, h, if_true]
    · have h1 : k < rec.parameters := by omega
      exact ((buildDescriptor_kinds fresh q rec).1 k h1)
  · intro h1 h2
    have e1 : usub k w.inst.m_controlPortCount = k - w.inst.m_controlPortCount :=
      usub_eq _ _ hk h1
    have h3 : ¬ k < w.inst.m_controlPortCount := by omega
    have h4 : k - w.inst.m_controlPortCount < w.inst.m_audioInCount := by omega
    refine ⟨?_, ?_⟩
    · simp only [connectPort, hok, Bool.not_true, Bool.false_eq_true, if_false, h3, e1, h4,
        if_true]
    · have h5 : k - rec.parameters < rec.inputs := by omega
      have h6 := (buildDescriptor_kinds fresh q rec).2.1 (k - rec.parameters) h5
      have h7 : rec.parameters + (k - rec.parameters) = k := by omega
      rw [h7] at h6
      exact h6
  · intro h1 h2
    have e1 : usub k w.inst.m_controlPortCount = k - w.inst.m_controlPortCount :=
      usub_eq _ _ hk (by omega)
    have e2 : usub (k - w.inst.m_controlPortCount) w.inst.m_audioInCount =
        k - w.inst.m_controlPortCount - w.inst.m_audioInCount :=
      usub_eq _ _ (by omega) (by omega)
    have h3 : ¬ k < w.inst.m_controlPortCount := by omega
    have h4 : ¬ k - w.inst.m_controlPortCount < w.inst.m_audioInCount := by omega
    have h5 : k - w.inst.m_controlPortCount - w.inst.m_audioInCount <
        w.inst.m_audioOutCount := by omega
    refine ⟨?_, ?_⟩
    · simp only [connectPort, hok, Bool.not_true, Bool.false_eq_true, if_false, h3, e1, h4, e2,
        h5, if_true]
    · have h6 : k - (rec.parameters + rec.inputs) < rec.outputs := by omega
      have h7 := (buildDescriptor_kinds fresh q rec).2.2.1 (k - (rec.parameters + rec.inputs)) h6
      have h8 : rec.parameters + rec.inputs + (k - (rec.parameters + rec.inputs)) = k := by
        omega
      rw [h8] at h7
      exact h7
  · intro h1
    have e1 : usub k w.inst.m_controlPortCount = k - w.inst.m_controlPortCount :=
      usub_eq _ _ hk (by omega)
    have e2 : usub (k - w.inst.m_controlPortCount) w.inst.m_audioInCount =
        k - w.inst.m_controlPortCount - w.inst.m_audioInCount :=
      usub_eq _ _ (by omega) (by omega)
    have e3 : usub (k - w.inst.m_controlPortCount - w.inst.m_audioInCount)
        w.inst.m_audioOutCount = 0 := by
      rw [usub_eq _ _ (by omega) (by omega)]
      omega
    have h3 : ¬ k < w.inst.m_controlPortCount := by omega
    have h4 : ¬ k - w.inst.m_controlPortCount < w.inst.m_audioInCount := by omega
    have h5 : ¬ k - w.inst.m_controlPortCount - w.inst.m_audioInCount <
        w.inst.m_audioOutCount := by omega
    refine ⟨?_, ?_⟩
    · simp only [connectPort, hok, Bool.not_true, Bool.false_eq_true, if_false, h3, e1, h4, e2,
        h5, e3, Nat.lt_one_iff, if_true]
      cases location <;> rfl
    · have h6 := (buildDescriptor_kinds fresh q rec).2.2.2
      have h7 : rec.parameters + rec.inputs + rec.outputs = k := by omega
      rw [h7] at h6
      exact h6

/-- C2 at port 3 of the sample adapter, the second audio input of a plugin
with two parameters, two inputs and one output. -/
theorem C2_connectPort_slot_witness :
    sampleWorld.inst.m_ok = true ∧ 3 < ULONG_RANGE ∧
    sampleRecord.parameters = sampleWorld.inst.m_controlPortCount ∧
    sampleRecord.inputs = sampleWorld.inst.m_audioInCount ∧
    sampleRecord.outputs = sampleWorld.inst.m_audioOutCount ∧
    connectPort 3 (some 7) sampleWorld =
      { sampleWorld with inst := { sampleWorld.inst with
          m_audioIns := Function.update sampleWorld.inst.m_audioIns
            (3 - sampleWorld.inst.m_controlPortCount) (some 7) } } ∧
    (buildDescriptor zeroTables 0 sampleRecord).PortDescriptors 3 =
      LADSPA_PORT_INPUT ||| LADSPA_PORT_AUDIO :=
  ⟨by decide, by decide, by decide, by decide, by decide,
    (C2_connectPort_slot sampleWorld 3 (some 7) zeroTables 0 sampleRecord (by decide)
      (by decide) (by decide) (by decide) (by decide)).2.1 (by decide) (by decide)⟩

/-! ## The steps of `run` -/

theorem runResize_same (r : Remote) (n : Nat) (w : World) (h : n = w.inst.m_lastSampleCount) :
    runResize r n w = Except.ok w := by
  simp only [runResize, h, ne_eq, not_true_eq_false, if_false]

theorem resized_same (n : Nat) (w : World) (h : n = w.inst.m_lastSampleCount) :
    resized n w = w := by
  simp only [resized, h, ne_eq, not_true_eq_false, if_false]

theorem runResize_closed (r : Remote) (n : Nat) (w : World) (h : n ≠ w.inst.m_lastSampleCount)
    (hc : (r (w.log ++ [RemoteCall.setBufferSize n])).closed = true) :
    runResize r n w = Except.error { w with log := w.log ++ [RemoteCall.setBufferSize n] } := by
  simp only [runResize, issue, h, ne_eq, not_false_eq_true, if_true, hc]

theorem runResize_open (r : Remote) (n : Nat) (w : World) (h : n ≠ w.inst.m_lastSampleCount)
    (hc : (r (w.log ++ [RemoteCall.setBufferSize n])).closed = false) :
    runResize r n w = Except.ok (resized n w) := by
  simp only [runResize, resized, issue, h, ne_eq, not_false_eq_true, if_true, hc,
    Bool.false_eq_true, if_false]
  cases w.inst.m_latencyOut <;> rfl

theorem scanned_zero (w : World) : scanned w 0 = w := by
  have h : savedAfter w 0 = w.inst.m_controlPortsSaved := by
    funext i
    simp only [savedAfter, Nat.not_lt_zero, if_false]
  simp only [scanned, changedCalls, List.append_nil, h]

theorem savedAfter_succ (w : World) (k : Nat) :
    savedAfter w (k + 1) =
      match w.inst.m_controlPorts k with
      | some a => Function.update (savedAfter w k) k (w.mem a)
      | none => savedAfter w k := by
  funext i
  by_cases h1 : i = k
  · subst h1
    cases h : w.inst.m_controlPorts i <;> simp [savedAfter, h]
  · by_cases h2 : i < k
    · have h3 : i < k + 1 := by omega
      cases h : w.inst.m_controlPorts k <;>
        simp [savedAfter, h, h1, h2, h3, Function.update_apply]
    · have h3 : ¬ i < k + 1 := by omega
      cases h : w.inst.m_controlPorts k <;>
        simp [savedAfter, h, h1, h2, h3, Function.update_apply]

theorem savedAfter_self (w : World) (k : Nat) :
    savedAfter w k k = w.inst.m_controlPortsSaved k := by
  simp only [savedAfter, Nat.lt_irrefl, if_false]

/-- One pass of the loop of `run` from the state reached after `k` passes. -/
theorem runParameter_scanned (r : Remote) (w : World) (k : Nat) :
    runParameter r k (scanned w k) =
      if changedCall w k = [] then Except.ok (scanned w (k + 1))
      else if (r (w.log ++ changedCalls w (k + 1))).closed then
        Except.error { scanned w k with log := w.log ++ changedCalls w (k + 1) }
      else Except.ok (scanned w (k + 1)) := by
  cases h : w.inst.m_controlPorts k with
  | none =>
    simp only [runParameter, scanned, changedCall, changedCalls, h, savedAfter_succ,
      List.append_nil, if_true]
  | some a =>
    by_cases hd : w.inst.m_controlPortsSaved k = w.mem a
    · have e : Function.update (savedAfter w k) k (w.mem a) = savedAfter w k := by
        funext i
        by_cases hi : i = k
        · subst hi
          simp only [Function.update_same, savedAfter_self, hd]
        · simp only [Function.update_apply, hi, if_false]
      simp only [runParameter, scanned, changedCall, changedCalls, h, savedAfter_succ,
        savedAfter_self, hd, ne_eq, not_true_eq_false, if_false, List.append_nil, if_true, e]
    · simp only [runParameter, scanned, changedCall, changedCalls, h, savedAfter_succ,
        savedAfter_self, hd, ne_eq, not_false_eq_true, if_true, issue, List.append_assoc,
        List.cons_ne_nil, if_false]
      split_ifs <;> rfl

/-- The loop of `run` either gets through all `n` ports, or stops at the first
`setParameter` call on which the channel closes. -/
theorem forLoopE_runParameter (r : Remote) (w : World) (n : Nat) :
    forLoopE n (runParameter r) w = Except.ok (scanned w n) ∨
    ∃ m, m < n ∧ changedCall w m ≠ [] ∧
      forLoopE n (runParameter r) w =
        Except.error { scanned w m with log := w.log ++ changedCalls w (m + 1) } := by
  induction n with
  | zero =>
    left
    simp only [forLoopE, scanned_zero]
  | succ n ih =>
    rcases ih with h | ⟨m, hm, hne, h⟩
    · simp only [forLoopE, h, runParameter_scanned]
      by_cases h1 : changedCall w n = []
      · left
        simp only [h1, if_true]
      · by_cases h2 : (r (w.log ++ changedCalls w (n + 1))).closed = true
        · right
          exact ⟨n, Nat.lt_succ_self n, h1, by simp only [h1, if_false, h2, if_true]⟩
        · left
          simp only [h1, if_false, h2, Bool.false_eq_true]
    · right
      exact ⟨m, Nat.lt_succ_of_lt hm, hne, by simp only [forLoopE, h]⟩

theorem resized_controlPortCount (n : Nat) (w : World) :
    (resized n w).inst.m_controlPortCount = w.inst.m_controlPortCount := by
  unfold resized
  split_ifs <;> rfl

theorem resized_controlPorts (n : Nat) (w : World) :
    (resized n w).inst.m_controlPorts = w.inst.m_controlPorts := by
  unfold resized
  split_ifs <;> rfl

theorem resized_saved (n : Nat) (w : World) :
    (resized n w).inst.m_controlPortsSaved = w.inst.m_controlPortsSaved := by
  unfold resized
  split_ifs <;> rfl

theorem resized_ok (n : Nat) (w : World) : (resized n w).inst.m_ok = w.inst.m_ok := by
  unfold resized
  split_ifs <;> rfl

theorem resized_lastSampleCount (n : Nat) (w : World) :
    (resized n w).inst.m_lastSampleCount = n := by
  unfold resized
  split_ifs with h
  · rfl
  · exact (not_not.mp h).symm

theorem resized_processCall (n : Nat) (w : World) : processCall (resized n w) = processCall w := by
  unfold resized
  split_ifs <;> rfl

/-- The attempt of `run` once the resize step is behind it. -/
theorem runTry_resized (r : Remote) (n : Nat) (w : World)
    (h : n = w.inst.m_lastSampleCount ∨
      (r (w.log ++ [RemoteCall.setBufferSize n])).closed = false) :
    runTry r n w =
      match forLoopE w.inst.m_controlPortCount (runParameter r) (resized n w) with
      | Except.error e => Except.error e
      | Except.ok w2 => runProcess r w2 := by
  by_cases h1 : n = w.inst.m_lastSampleCount
  · simp only [runTry, runResize_same r n w h1, resized_same n w h1]
  · have h2 : (r (w.log ++ [RemoteCall.setBufferSize n])).closed = false := by
      rcases h with h | h
      · exact absurd h h1
      · exact h
    simp only [runTry, runResize_open r n w h1 h2, resized_controlPortCount]

/-- Every way `run` can go on an Ok adapter: the resize fails; or, with the
resize step behind it, a `setParameter` call fails, the `process` call fails,
or the block is processed. -/
theorem run_cases (r : Remote) (n : Nat) (w : World) (hok : w.inst.m_ok = true) :
    (n ≠ w.inst.m_lastSampleCount ∧
      (r (w.log ++ [RemoteCall.setBufferSize n])).closed = true ∧
      run r n w = markFailed { w with log := w.log ++ [RemoteCall.setBufferSize n] }) ∨
    ((n = w.inst.m_lastSampleCount ∨
        (r (w.log ++ [RemoteCall.setBufferSize n])).closed = false) ∧
      ((∃ m, m < w.inst.m_controlPortCount ∧ changedCall (resized n w) m ≠ [] ∧
          run r n w = markFailed { scanned (resized n w) m with
            log := (resized n w).log ++ changedCalls (resized n w) (m + 1) }) ∨
        run r n w = markFailed { scanned (resized n w) w.inst.m_controlPortCount with
          log := (resized n w).log ++ changedCalls (resized n w) w.inst.m_controlPortCount ++
            [processCall w] } ∨
        (runTry r n w = Except.ok { scanned (resized n w) w.inst.m_controlPortCount with
            log := (resized n w).log ++ changedCalls (resized n w) w.inst.m_controlPortCount ++
              [processCall w] } ∧
          run r n w = { scanned (resized n w) w.inst.m_controlPortCount with
            log := (resized n w).log ++ changedCalls (resized n w) w.inst.m_controlPortCount ++
              [processCall w] }))) := by
  by_cases hA : n ≠ w.inst.m_lastSampleCount ∧
      (r (w.log ++ [RemoteCall.setBufferSize n])).closed = true
  · left
    refine ⟨hA.1, hA.2, ?_⟩
    simp only [run, hok, if_true, runTry, runResize_closed r n w hA.1 hA.2]
  · right
    have hB : n = w.inst.m_lastSampleCount ∨
        (r (w.log ++ [RemoteCall.setBufferSize n])).closed = false := by
      by_cases h1 : n = w.inst.m_lastSampleCount
      · exact Or.inl h1
      · right
        cases hc : (r (w.log ++ [RemoteCall.setBufferSize n])).closed
        · rfl
        · exact absurd ⟨h1, hc⟩ hA
    refine ⟨hB, ?_⟩
    have hT := runTry_resized r n w hB
    rcases forLoopE_runParameter r (resized n w) w.inst.m_controlPortCount with
      h | ⟨m, hm, hne, h⟩
    · right
      rw [h] at hT
      have hp : runProcess r (scanned (resized n w) w.inst.m_controlPortCount) =
          if (r ((resized n w).log ++ changedCalls (resized n w) w.inst.m_controlPortCount ++
              [processCall w])).closed then
            Except.error { scanned (resized n w) w.inst.m_controlPortCount with
              log := (resized n w).log ++
                changedCalls (resized n w) w.inst.m_controlPortCount ++ [processCall w] }
          else
            Except.ok { scanned (resized n w) w.inst.m_controlPortCount with
              log := (resized n w).log ++
                changedCalls (resized n w) w.inst.m_controlPortCount ++ [processCall w] } := by
        have e := resized_processCall n w
        simp only [processCall] at e
        simp only [runProcess, issue, scanned, processCall, e]
        split_ifs <;> rfl
      simp only [hp] at hT
      by_cases hc : (r ((resized n w).log ++
          changedCalls (resized n w) w.inst.m_controlPortCount ++ [processCall w])).closed = true
      · left
        simp only [hc, if_true] at hT
        simp only [run, hok, if_true, hT]
      · right
        simp only [hc, Bool.false_eq_true, if_false] at hT
        exact ⟨hT, by simp only [run, hok, if_true, hT]⟩
    · left
      rw [h] at hT
      refine ⟨m, hm, hne, ?_⟩
      simp only [run, hok, if_true, hT]

theorem changedCalls_no_setBufferSize (w : World) (n : Nat) :
    (changedCalls w n).filter isSetBufferSize = [] := by
  induction n with
  | zero => rfl
  | succ n ih =>
    simp only [changedCalls, List.filter_append, ih, List.nil_append]
    unfold changedCall
    cases w.inst.m_controlPorts n with
    | none => rfl
    | some a =>
      simp only
      split_ifs <;> rfl

theorem resized_log (n : Nat) (w : World) :
    (resized n w).log =
      w.log ++ (if n ≠ w.inst.m_lastSampleCount then [RemoteCall.setBufferSize n] else []) := by
  unfold resized
  split_ifs <;> simp

theorem resized_latencyOut (n : Nat) (w : World) :
    (resized n w).inst.m_latencyOut = w.inst.m_latencyOut := by
  unfold resized
  split_ifs <;> rfl

theorem resized_mem_latency (n : Nat) (w : World) (h : n ≠ w.inst.m_lastSampleCount) (a : Nat)
    (ha : w.inst.m_latencyOut = some a) : (resized n w).mem a = (n : LADSPA_Data) := by
  simp only [resized, h, ne_eq, not_false_eq_true, if_true, ha, Function.update_same]

theorem run_failed (r : Remote) (n : Nat) (w : World) (h : w.inst.m_ok = false) :
    run r n w = w := by
  simp only [run, h, Bool.false_eq_true, if_false]

/-- What every `run` on an Ok adapter has in common: the calls it issues
are the resize, if one is due, followed by calls that are no resize; with the
resize step behind it, the block size is the new one and host memory and
latency pointer are as that step left them. -/
theorem run_summary (r : Remote) (n : Nat) (w : World) (hok : w.inst.m_ok = true) :
    ∃ calls, (run r n w).log = (resized n w).log ++ calls ∧
      calls.filter isSetBufferSize = [] ∧
      ((n = w.inst.m_lastSampleCount ∨
          (r (w.log ++ [RemoteCall.setBufferSize n])).closed = false) →
        (run r n w).mem = (resized n w).mem ∧ (run r n w).inst.m_lastSampleCount = n ∧
          (run r n w).inst.m_latencyOut = w.inst.m_latencyOut) ∧
      ((run r n w).inst.m_ok = true → (run r n w).inst.m_lastSampleCount = n) := by
  rcases run_cases r n w hok with ⟨h1, h2, h⟩ | ⟨hB, ⟨m, _, _, h⟩ | h | ⟨_, h⟩⟩
  · refine ⟨[], ?_, rfl, ?_, ?_⟩
    · simp only [h, markFailed, resized_log, h1, ne_eq, not_false_eq_true, if_true,
        List.append_nil]
    · intro h3
      rcases h3 with h3 | h3
      · exact absurd h3 h1
      · rw [h2] at h3
        exact absurd h3 (by decide)
    · intro h3
      rw [h] at h3
      exact absurd h3 (by simp [markFailed])
  · refine ⟨changedCalls (resized n w) (m + 1), ?_, changedCalls_no_setBufferSize _ _, ?_, ?_⟩
    · simp only [h, markFailed]
    · intro _
      simp only [h, markFailed, scanned, resized_lastSampleCount, resized_latencyOut, and_self]
    · intro h3
      rw [h] at h3
      exact absurd h3 (by simp [markFailed])
  · refine ⟨changedCalls (resized n w) w.inst.m_controlPortCount ++ [processCall w], ?_, ?_, ?_,
      ?_⟩
    · simp only [h, markFailed, List.append_assoc]
    · simp only [List.filter_append, changedCalls_no_setBufferSize, List.nil_append]
      rfl
    · intro _
      simp only [h, markFailed, scanned, resized_lastSampleCount, resized_latencyOut, and_self]
    · intro h3
      rw [h] at h3
      exact absurd h3 (by simp [markFailed])
  · refine ⟨changedCalls (resized n w) w.inst.m_controlPortCount ++ [processCall w], ?_, ?_, ?_,
      ?_⟩
    · simp only [h, List.append_assoc]
    · simp only [List.filter_append, changedCalls_no_setBufferSize, List.nil_append]
      rfl
    · intro _
      simp only [h, scanned, resized_lastSampleCount, resized_latencyOut, and_self]
    · intro _
      simp only [h, scanned, resized_lastSampleCount]

/-- C3: on an Ok adapter whose last negotiated block size is L, run(n)
issues exactly one resize call, setBufferSize(n), when n differs from L and
none when n equals L; when the resize succeeds the block size becomes n and
the cell of a connected latency port holds n at the end of the call; and of
two consecutive run calls with the same sampleCount the second issues no
resize, whatever the host wrote into its cells in between. -/
theorem C3_run_resize (r : Remote) (n : Nat) (w : World) (hok : w.inst.m_ok = true) :
    (n ≠ w.inst.m_lastSampleCount →
      ∃ calls, (run r n w).log = w.log ++ calls ∧
        calls.filter isSetBufferSize = [RemoteCall.setBufferSize n]) ∧
    (n = w.inst.m_lastSampleCount →
      ∃ calls, (run r n w).log = w.log ++ calls ∧ calls.filter isSetBufferSize = []) ∧
    (n ≠ w.inst.m_lastSampleCount →
      (r (w.log ++ [RemoteCall.setBufferSize n])).closed = false →
      (run r n w).inst.m_lastSampleCount = n ∧
        (run r n w).inst.m_latencyOut = w.inst.m_latencyOut ∧
        ∀ a, w.inst.m_latencyOut = some a → (run r n w).mem a = (n : LADSPA_Data)) ∧
    (∀ mem : HostMem,
      ∃ calls, (run r n { run r n w with mem := mem }).log = (run r n w).log ++ calls ∧
        calls.filter isSetBufferSize = []) := by
  obtain ⟨calls, hlog, hfil, hB, hL⟩ := run_summary r n w hok
  refine ⟨?_, ?_, ?_, ?_⟩
  · intro h
    refine ⟨[RemoteCall.setBufferSize n] ++ calls, ?_, ?_⟩
    · rw [hlog, resized_log]
      simp only [h, ne_eq, not_false_eq_true, if_true, List.append_assoc]
    · rw [List.filter_append, hfil]
      rfl
  · intro h
    refine ⟨calls, ?_, hfil⟩
    rw [hlog, resized_same n w h]
  · intro h hc
    obtain ⟨h1, h2, h3⟩ := hB (Or.inr hc)
    refine ⟨h2, h3, ?_⟩
    intro a ha
    rw [h1]
    exact resized_mem_latency n w h a ha
  · intro mem
    by_cases h2 : (run r n w).inst.m_ok = true
    · obtain ⟨calls2, hlog2, hfil2, _, _⟩ :=
        run_summary r n { run r n w with mem := mem } h2
      have e := resized_same n { run r n w with mem := mem } (hL h2).symm
      exact ⟨calls2, by rw [hlog2, e], hfil2⟩
    · have e : run r n { run r n w with mem := mem } = { run r n w with mem := mem } :=
        run_failed r n _ (by simpa using h2)
      exact ⟨[], by rw [e, List.append_nil], rfl⟩

/-- C3 on the sample adapter: the first run with 64 frames resizes. -/
theorem C3_run_resize_witness :
    sampleWorld.inst.m_ok = true ∧
    ∃ calls, (run sampleRemote 64 sampleWorld).log = sampleWorld.log ++ calls ∧
      calls.filter isSetBufferSize = [RemoteCall.setBufferSize 64] :=
  ⟨by decide, (C3_run_resize sampleRemote 64 sampleWorld (by decide)).1 (by decide)⟩

/-! ## Parameter diffing in `run` -/

theorem changedCall_setParameter (w : World) (i : Nat) :
    (changedCall w i).filter isSetParameter = changedCall w i := by
  unfold changedCall
  cases w.inst.m_controlPorts i with
  | none => rfl
  | some a =>
    simp only
    split_ifs <;> rfl

theorem changedCalls_setParameter (w : World) (n : Nat) :
    (changedCalls w n).filter isSetParameter = changedCalls w n := by
  induction n with
  | zero => rfl
  | succ n ih => simp only [changedCalls, List.filter_append, ih, changedCall_setParameter]

theorem changedCall_length (w : World) (i : Nat) :
    (changedCall w i).length = if differs w i = true then 1 else 0 := by
  unfold changedCall differs
  cases w.inst.m_controlPorts i with
  | none => rfl
  | some a =>
    simp only [decide_eq_true_eq]
    split_ifs <;> rfl

/-- As many calls are due as there are connected control ports whose value
differs from the shadow value. -/
theorem changedCalls_length (w : World) (n : Nat) :
    (changedCalls w n).length = (List.range n).countP (differs w) := by
  induction n with
  | zero => rfl
  | succ n ih =>
    simp only [changedCalls, List.length_append, ih, List.range_succ, List.countP_append,
      changedCall_length, List.countP_cons, List.countP_nil, Nat.zero_add]

theorem changedCalls_nil (w : World) (k : Nat) (h : ∀ j, j < k → changedCall w j = []) :
    changedCalls w k = [] := by
  induction k with
  | zero => rfl
  | succ k ih =>
    simp only [changedCalls, ih (fun j hj => h j (Nat.lt_succ_of_lt hj)),
      h k (Nat.lt_succ_self k), List.append_nil]

theorem changedCalls_single (w : World) (i k : Nat)
    (h : ∀ j, j < k → j ≠ i → changedCall w j = []) :
    changedCalls w k = if i < k then changedCall w i else [] := by
  induction k with
  | zero => rfl
  | succ k ih =>
    have ih1 := ih (fun j hj => h j (Nat.lt_succ_of_lt hj))
    by_cases h1 : i = k
    · subst h1
      simp only [changedCalls, ih1, Nat.lt_irrefl, if_false, List.nil_append,
        Nat.lt_succ_self, if_true]
    · have h2 := h k (Nat.lt_succ_self k) (fun e => h1 e.symm)
      have h3 : i < k + 1 ↔ i < k := by omega
      simp only [changedCalls, ih1, h2, List.append_nil, h3]

theorem resized_mem (n : Nat) (w : World) (a : Nat)
    (h : n = w.inst.m_lastSampleCount ∨ w.inst.m_latencyOut ≠ some a) :
    (resized n w).mem a = w.mem a := by
  unfold resized
  split_ifs with h1
  · have h2 : w.inst.m_latencyOut ≠ some a := by
      rcases h with h | h
      · exact absurd h h1
      · exact h
    cases hl : w.inst.m_latencyOut with
    | none => rfl
    | some b =>
      have h3 : a ≠ b := by
        intro e
        rw [hl, e] at h2
        exact h2 rfl
      simp only [Function.update_apply, h3, if_false]
  · rfl

/-- A `run` on an Ok adapter that leaves the adapter Ok went through all
its steps. -/
theorem run_completed (r : Remote) (n : Nat) (w : World) (hok : w.inst.m_ok = true)
    (hdone : (run r n w).inst.m_ok = true) :
    run r n w = { scanned (resized n w) w.inst.m_controlPortCount with
      log := (resized n w).log ++ changedCalls (resized n w) w.inst.m_controlPortCount ++
        [processCall w] } := by
  rcases run_cases r n w hok with ⟨_, _, h⟩ | ⟨_, ⟨m, _, _, h⟩ | h | ⟨_, h⟩⟩
  · rw [h] at hdone
    exact absurd hdone (by simp [markFailed])
  · rw [h] at hdone
    exact absurd hdone (by simp [markFailed])
  · rw [h] at hdone
    exact absurd hdone (by simp [markFailed])
  · exact h

/-- The `setParameter` calls of a `run` on an Ok adapter: none when the
resize fails; otherwise the calls due for all control ports, or for the ports
up to the one whose call closed the channel. -/
theorem run_setParameter_calls (r : Remote) (n : Nat) (w : World) (hok : w.inst.m_ok = true) :
    ∃ calls, (run r n w).log = w.log ++ calls ∧
      ((n ≠ w.inst.m_lastSampleCount ∧
          (r (w.log ++ [RemoteCall.setBufferSize n])).closed = true ∧
          calls.filter isSetParameter = []) ∨
        ((n = w.inst.m_lastSampleCount ∨
            (r (w.log ++ [RemoteCall.setBufferSize n])).closed = false) ∧
          ((∃ m, m < w.inst.m_controlPortCount ∧ changedCall (resized n w) m ≠ [] ∧
              calls.filter isSetParameter = changedCalls (resized n w) (m + 1)) ∨
            calls.filter isSetParameter =
              changedCalls (resized n w) w.inst.m_controlPortCount))) := by
  have hsb : ∀ k, ((if n ≠ w.inst.m_lastSampleCount then [RemoteCall.setBufferSize n]
      else []) ++ changedCalls (resized n w) k).filter isSetParameter =
        changedCalls (resized n w) k := by
    intro k
    rw [List.filter_append, changedCalls_setParameter]
    split_ifs <;> rfl
  rcases run_cases r n w hok with ⟨h1, h2, h⟩ | ⟨hB, ⟨m, hm, hne, h⟩ | h | ⟨_, h⟩⟩
  · refine ⟨[RemoteCall.setBufferSize n], ?_, Or.inl ⟨h1, h2, rfl⟩⟩
    simp only [h, markFailed]
  · refine ⟨(if n ≠ w.inst.m_lastSampleCount then [RemoteCall.setBufferSize n] else []) ++
      changedCalls (resized n w) (m + 1), ?_, Or.inr ⟨hB, Or.inl ⟨m, hm, hne, hsb _⟩⟩⟩
    simp only [h, markFailed, resized_log, List.append_assoc]
  · refine ⟨(if n ≠ w.inst.m_lastSampleCount then [RemoteCall.setBufferSize n] else []) ++
      changedCalls (resized n w) w.inst.m_controlPortCount ++ [processCall w], ?_,
      Or.inr ⟨hB, Or.inr ?_⟩⟩
    · simp only [h, markFailed, resized_log, List.append_assoc]
    · rw [List.filter_append, hsb]
      simp [processCall, isSetParameter]
  · refine ⟨(if n ≠ w.inst.m_lastSampleCount then [RemoteCall.setBufferSize n] else []) ++
      changedCalls (resized n w) w.inst.m_controlPortCount ++ [processCall w], ?_,
      Or.inr ⟨hB, Or.inr ?_⟩⟩
    · simp only [h, resized_log, List.append_assoc]
    · rw [List.filter_append, hsb]
      simp [processCall, isSetParameter]

theorem changedCall_resized (n : Nat) (w : World) (j : Nat)
    (h : n = w.inst.m_lastSampleCount ∨
      ∀ a, w.inst.m_controlPorts j = some a → w.inst.m_latencyOut ≠ some a) :
    changedCall (resized n w) j = changedCall w j := by
  unfold changedCall
  rw [resized_controlPorts, resized_saved]
  cases hp : w.inst.m_controlPorts j with
  | none => rfl
  | some a =>
    have e : (resized n w).mem a = w.mem a := by
      apply resized_mem
      rcases h with h | h
      · exact Or.inl h
      · exact Or.inr (h a hp)
    simp only [e]

/-- The step of the amended C4 for a host that changed nothing: from a
synced Ok adapter whose latency cell is no control cell (or whose block size
stays), the next `run` issues no `setParameter`. -/
theorem following_run_unchanged (r : Remote) (n : Nat) (w : World) (mem2 : HostMem)
    (hok : w.inst.m_ok = true) (hs : Synced w)
    (hlat : n = w.inst.m_lastSampleCount ∨
      ∀ i a, i < w.inst.m_controlPortCount → w.inst.m_controlPorts i = some a →
        w.inst.m_latencyOut ≠ some a)
    (hsame : ∀ i a, i < w.inst.m_controlPortCount → w.inst.m_controlPorts i = some a →
      mem2 a = w.mem a) :
    ∃ calls, (run r n { w with mem := mem2 }).log = w.log ++ calls ∧
      calls.filter isSetParameter = [] := by
  have hz : ∀ j, j < w.inst.m_controlPortCount →
      changedCall (resized n { w with mem := mem2 }) j = [] := by
    intro j hj
    rw [changedCall_resized n { w with mem := mem2 } j
      (by
        rcases hlat with h | h
        · exact Or.inl h
        · exact Or.inr (fun a ha => h j a hj ha))]
    unfold changedCall
    cases hp : w.inst.m_controlPorts j with
    | none => simp only [hp]
    | some a =>
      have e : w.inst.m_controlPortsSaved j = mem2 a := by
        rw [hsame j a hj hp]
        exact hs j a hj hp
      simp only [hp, e, ne_eq, not_true_eq_false, if_false]
  obtain ⟨calls, hlog, hc⟩ := run_setParameter_calls r n { w with mem := mem2 } hok
  refine ⟨calls, hlog, ?_⟩
  rcases hc with ⟨_, _, h⟩ | ⟨_, ⟨m, hm, hne, _⟩ | h⟩
  · exact h
  · exact absurd (hz m hm) hne
  · rw [h]
    exact changedCalls_nil _ _ hz

/-- The step of the amended C4 for a host that changed exactly one control
value: when the resize step succeeds, the next `run` issues exactly the one
`setParameter` call for that port and value. -/
theorem following_run_one_changed (r : Remote) (n : Nat) (w : World) (mem2 : HostMem)
    (i a : Nat) (hok : w.inst.m_ok = true) (hs : Synced w)
    (hlat : n = w.inst.m_lastSampleCount ∨
      ∀ i a, i < w.inst.m_controlPortCount → w.inst.m_controlPorts i = some a →
        w.inst.m_latencyOut ≠ some a)
    (hi : i < w.inst.m_controlPortCount) (hp : w.inst.m_controlPorts i = some a)
    (hv : mem2 a ≠ w.mem a)
    (hsame : ∀ j b, j < w.inst.m_controlPortCount → j ≠ i → w.inst.m_controlPorts j = some b →
      mem2 b = w.mem b)
    (hres : n = w.inst.m_lastSampleCount ∨
      (r (w.log ++ [RemoteCall.setBufferSize n])).closed = false) :
    ∃ calls, (run r n { w with mem := mem2 }).log = w.log ++ calls ∧
      calls.filter isSetParameter = [RemoteCall.setParameter i (mem2 a)] := by
  have hr : ∀ j, j < w.inst.m_controlPortCount →
      changedCall (resized n { w with mem := mem2 }) j = changedCall { w with mem := mem2 } j := by
    intro j hj
    exact changedCall_resized n { w with mem := mem2 } j
      (by
        rcases hlat with h | h
        · exact Or.inl h
        · exact Or.inr (fun a ha => h j a hj ha))
  have hz : ∀ j, j < w.inst.m_controlPortCount → j ≠ i →
      changedCall (resized n { w with mem := mem2 }) j = [] := by
    intro j hj hji
    rw [hr j hj]
    unfold changedCall
    cases hq : w.inst.m_controlPorts j with
    | none => simp only [hq]
    | some b =>
      have e : w.inst.m_controlPortsSaved j = mem2 b := by
        rw [hsame j b hj hji hq]
        exact hs j b hj hq
      simp only [hq, e, ne_eq, not_true_eq_false, if_false]
  have hone : changedCall (resized n { w with mem := mem2 }) i =
      [RemoteCall.setParameter i (mem2 a)] := by
    rw [hr i hi]
    have e : w.inst.m_controlPortsSaved i ≠ mem2 a := by
      rw [hs i a hi hp]
      exact fun h => hv h.symm
    simp only [changedCall, hp, e, ne_eq, not_false_eq_true, if_true]
  obtain ⟨calls, hlog, hc⟩ := run_setParameter_calls r n { w with mem := mem2 } hok
  refine ⟨calls, hlog, ?_⟩
  rcases hc with ⟨h1, h2, _⟩ | ⟨_, ⟨m, hm, hne, h⟩ | h⟩
  · rcases hres with h3 | h3
    · exact absurd h3 h1
    · have h4 : (r (w.log ++ [RemoteCall.setBufferSize n])).closed = true := h2
      rw [h3] at h4
      exact absurd h4 (by decide)
  · have hmi : m = i := by
      by_contra hmi
      exact hne (hz m hm hmi)
    subst hmi
    rw [h, changedCalls_single _ m (m + 1) (fun j hj hjm => hz j (by omega) hjm)]
    simp only [Nat.lt_succ_self, if_true, hone]
  · rw [h, changedCalls_single _ i _ (fun j hj hji => hz j hj hji)]
    have hi2 : i < (World.mk w.inst mem2 w.heap w.log).inst.m_controlPortCount := hi
    simp only [hi2, if_true, hone]

/-- C4 (amended): a run on an Ok adapter that completes issues exactly the
setParameter calls due for the connected control ports whose value, as the
loop reads it, differs from the shadow value, as many calls as there are such
ports, and leaves every connected port with shadow equal to value.  For a
following run with the same connections whose latency cell is not the cell of
a connected control port (or whose sampleCount is the negotiated one): if the
host changed no connected control port's value, it issues no setParameter
call; if the host changed exactly one connected port i to v and the resize
step of that run succeeds, it issues exactly setParameter(i, v). -/
theorem C4_parameter_diffing (r : Remote) (n : Nat) (w : World) (hok : w.inst.m_ok = true)
    (hdone : (run r n w).inst.m_ok = true) :
    (∃ calls, (run r n w).log = w.log ++ calls ∧
      calls.filter isSetParameter = changedCalls (resized n w) w.inst.m_controlPortCount ∧
      (calls.filter isSetParameter).length =
        (List.range w.inst.m_controlPortCount).countP (differs (resized n w))) ∧
    Synced (run r n w) ∧
    (∀ (r2 : Remote) (n2 : Nat) (mem2 : HostMem),
      (n2 = (run r n w).inst.m_lastSampleCount ∨
        ∀ i a, i < (run r n w).inst.m_controlPortCount →
          (run r n w).inst.m_controlPorts i = some a →
          (run r n w).inst.m_latencyOut ≠ some a) →
      (∀ i a, i < (run r n w).inst.m_controlPortCount →
        (run r n w).inst.m_controlPorts i = some a → mem2 a = (run r n w).mem a) →
      ∃ calls, (run r2 n2 { run r n w with mem := mem2 }).log = (run r n w).log ++ calls ∧
        calls.filter isSetParameter = []) ∧
    (∀ (r2 : Remote) (n2 : Nat) (mem2 : HostMem) (i a : Nat),
      (n2 = (run r n w).inst.m_lastSampleCount ∨
        ∀ i a, i < (run r n w).inst.m_controlPortCount →
          (run r n w).inst.m_controlPorts i = some a →
          (run r n w).inst.m_latencyOut ≠ some a) →
      i < (run r n w).inst.m_controlPortCount →
      (run r n w).inst.m_controlPorts i = some a →
      mem2 a ≠ (run r n w).mem a →
      (∀ j b, j < (run r n w).inst.m_controlPortCount → j ≠ i →
        (run r n w).inst.m_controlPorts j = some b → mem2 b = (run r n w).mem b) →
      (n2 = (run r n w).inst.m_lastSampleCount ∨
        (r2 ((run r n w).log ++ [RemoteCall.setBufferSize n2])).closed = false) →
      ∃ calls, (run r2 n2 { run r n w with mem := mem2 }).log = (run r n w).log ++ calls ∧
        calls.filter isSetParameter = [RemoteCall.setParameter i (mem2 a)]) := by
  have hrun := run_completed r n w hok hdone
  have hsync : Synced (run r n w) := by
    intro i a hi hp
    rw [hrun] at hi hp ⊢
    have hi2 : i < w.inst.m_controlPortCount := by
      simpa [scanned, resized_controlPortCount] using hi
    have hp2 : (resized n w).inst.m_controlPorts i = some a := by
      simpa [scanned] using hp
    simp only [scanned, savedAfter, resized_controlPortCount, hi2, if_true, hp2]
  refine ⟨?_, hsync, ?_, ?_⟩
  · obtain ⟨calls, hlog, hc⟩ := run_setParameter_calls r n w hok
    have hfil : calls.filter isSetParameter =
        changedCalls (resized n w) w.inst.m_controlPortCount := by
      have hl : w.log ++ calls = (resized n w).log ++
          changedCalls (resized n w) w.inst.m_controlPortCount ++ [processCall w] := by
        rw [← hlog, hrun]
      rw [resized_log, List.append_assoc, List.append_assoc] at hl
      have hcalls := List.append_cancel_left hl
      rw [hcalls, List.filter_append, List.filter_append, changedCalls_setParameter]
      have e1 : (if n ≠ w.inst.m_lastSampleCount then [RemoteCall.setBufferSize n]
          else []).filter isSetParameter = [] := by
        split_ifs <;> rfl
      rw [e1]
      simp [processCall, isSetParameter]
    exact ⟨calls, hlog, hfil, by rw [hfil, changedCalls_length]⟩
  · intro r2 n2 mem2 hlat hsame
    exact following_run_unchanged r2 n2 (run r n w) mem2 hdone hsync hlat hsame
  · intro r2 n2 mem2 i a hlat hi hp hv hsame hres
    exact following_run_one_changed r2 n2 (run r n w) mem2 i a hdone hsync hlat hi hp hv hsame
      hres

/-- C4 (amended) on the sample adapter with control port 0 connected: the
first run of 64 frames completes. -/
theorem C4_parameter_diffing_witness :
    oneControlWorld.inst.m_ok = true ∧
    (run sampleRemote 64 oneControlWorld).inst.m_ok = true ∧
    Synced (run sampleRemote 64 oneControlWorld) :=
  ⟨by decide, by decide,
    (C4_parameter_diffing sampleRemote 64 oneControlWorld (by decide) (by decide)).2.1⟩

/-- C4 as stated fails twice.  With control port 0 and the latency port on
one cell, a second run with another sampleCount issues setParameter(0, 128)
although the host changed nothing.  And when the host changed control port 0
but the resize of the second run closes the channel, that run issues no
setParameter at all. -/
theorem C4_counterexample :
    ((run sampleRemote 64 sharedCellWorld).inst.m_ok = true ∧
      ((run sampleRemote 128 (run sampleRemote 64 sharedCellWorld)).log.drop
        (run sampleRemote 64 sharedCellWorld).log.length).filter isSetParameter =
          [RemoteCall.setParameter 0 128]) ∧
    ((run (closingRemote 9) 64 oneControlWorld).inst.m_ok = true ∧
      (run (closingRemote 9) 64 oneControlWorld).inst.m_controlPorts 0 = some 5 ∧
      (run (closingRemote 9) 64 oneControlWorld).mem 5 = 0 ∧
      ((run (closingRemote 9) 128 { run (closingRemote 9) 64 oneControlWorld with
          mem := Function.update (run (closingRemote 9) 64 oneControlWorld).mem 5 1 }).log.drop
        (run (closingRemote 9) 64 oneControlWorld).log.length).filter isSetParameter = []) := by
  decide

/-! ## Program selection -/

/-- The loop of `selectProgram` over the control ports below `k`, when the
remote side answers every call: each connected port has the fetched value as
its shadow, and each cell holds the value fetched for the last port connected
to it. -/
theorem selectProgram_loop (r : Remote) (w : World) (program : Nat) (k : Nat)
    (hopen : ∀ j, j ≤ k →
      (r (w.log ++ [RemoteCall.setCurrentProgram program] ++ fetchCalls w j)).closed = false) :
    ∃ w1, forLoopE k (selectProgramPort r)
        { w with log := w.log ++ [RemoteCall.setCurrentProgram program] } = Except.ok w1 ∧
      w1.log = w.log ++ [RemoteCall.setCurrentProgram program] ++ fetchCalls w k ∧
      w1.heap = w.heap ∧
      w1.inst = { w.inst with m_controlPortsSaved := w1.inst.m_controlPortsSaved } ∧
      (∀ i a, i < k → w.inst.m_controlPorts i = some a →
        w1.inst.m_controlPortsSaved i = fetched r w program i) ∧
      (∀ i, (k ≤ i ∨ w.inst.m_controlPorts i = none) →
        w1.inst.m_controlPortsSaved i = w.inst.m_controlPortsSaved i) ∧
      (∀ i a, i < k → w.inst.m_controlPorts i = some a →
        (∀ j, i < j → j < k → w.inst.m_controlPorts j ≠ some a) →
        w1.mem a = fetched r w program i) ∧
      (∀ a, (∀ i, i < k → w.inst.m_controlPorts i ≠ some a) → w1.mem a = w.mem a) := by
  induction k with
  | zero =>
    refine ⟨_, rfl, ?_, rfl, rfl, ?_, ?_, ?_, ?_⟩
    · simp only [fetchCalls, List.append_nil]
    · intro i a hi
      exact absurd hi (Nat.not_lt_zero i)
    · intro i _
      rfl
    · intro i a hi
      exact absurd hi (Nat.not_lt_zero i)
    · intro a _
      rfl
  | succ k ih =>
    obtain ⟨w1, hloop, hlog, hheap, hinst, hsv, hsu, hmv, hmu⟩ :=
      ih (fun j hj => hopen j (Nat.le_succ_of_le hj))
    have hports : w1.inst.m_controlPorts = w.inst.m_controlPorts := by
      rw [hinst]
    cases hp : w.inst.m_controlPorts k with
    | none =>
      have hp1 : w1.inst.m_controlPorts k = none := by rw [hports, hp]
      refine ⟨w1, ?_, ?_, hheap, hinst, ?_, ?_, ?_, ?_⟩
      · simp only [forLoopE, hloop, selectProgramPort, hp1]
      · simp only [fetchCalls, hp, List.append_nil, hlog]
      · intro i a hi hpi
        have hik : i ≠ k := by
          intro e
          rw [e, hp] at hpi
          exact absurd hpi (by simp)
        exact hsv i a (by omega) hpi
      · intro i hi
        rcases hi with hi | hi
        · exact hsu i (Or.inl (by omega))
        · exact hsu i (Or.inr hi)
      · intro i a hi hpi hlast
        have hik : i ≠ k := by
          intro e
          rw [e, hp] at hpi
          exact absurd hpi (by simp)
        exact hmv i a (by omega) hpi (fun j h1 h2 => hlast j h1 (by omega))
      · intro a hno
        exact hmu a (fun i hi => hno i (by omega))
    | some a =>
      have hp1 : w1.inst.m_controlPorts k = some a := by rw [hports, hp]
      have hlog1 : w1.log ++ [RemoteCall.getParameter k] =
          w.log ++ [RemoteCall.setCurrentProgram program] ++ fetchCalls w (k + 1) := by
        simp only [fetchCalls, hp, hlog, List.append_assoc]
      have hcl : (r (w1.log ++ [RemoteCall.getParameter k])).closed = false := by
        rw [hlog1]
        exact hopen (k + 1) (Nat.le_refl _)
      have hval : (r (w1.log ++ [RemoteCall.getParameter k])).value = fetched r w program k := by
        rw [hlog1]
        rfl
      refine ⟨{ w1 with
          log := w1.log ++ [RemoteCall.getParameter k]
          mem := Function.update w1.mem a (fetched r w program k)
          inst := { w1.inst with
            m_controlPortsSaved :=
              Function.update w1.inst.m_controlPortsSaved k (fetched r w program k) } },
        ?_, hlog1, hheap, ?_, ?_, ?_, ?_, ?_⟩
      · simp only [forLoopE, hloop, selectProgramPort, hp1, issue, hcl, Bool.false_eq_true,
          if_false, hval, Function.update_same]
      · exact congrArg (fun s : Instance => { s with
          m_controlPortsSaved :=
            Function.update w1.inst.m_controlPortsSaved k (fetched r w program k) }) hinst
      · intro i b hi hpi
        by_cases hik : i = k
        · subst hik
          simp only [Function.update_same]
        · simp only [Function.update_apply, hik, if_false]
          exact hsv i b (by omega) hpi
      · intro i hi
        have hik : i ≠ k := by
          rcases hi with hi | hi
          · omega
          · intro e
            rw [e, hp] at hi
            exact absurd hi (by simp)
        simp only [Function.update_apply, hik, if_false]
        rcases hi with hi | hi
        · exact hsu i (Or.inl (by omega))
        · exact hsu i (Or.inr hi)
      · intro i b hi hpi hlast
        by_cases hik : i = k
        · subst hik
          have hab : b = a := by
            rw [hp] at hpi
            exact (Option.some.inj hpi).symm
          subst hab
          simp only [Function.update_same]
        · have hba : b ≠ a := by
            intro e
            subst e
            exact hlast k (by omega) (Nat.lt_succ_self k) hp
          simp only [Function.update_apply, hba, if_false]
          exact hmv i b (by omega) hpi (fun j h1 h2 => hlast j h1 (by omega))
      · intro b hno
        have hba : b ≠ a := by
          intro e
          subst e
          exact hno k (Nat.lt_succ_self k) hp
        simp only [Function.update_apply, hba, if_false]
        exact hmu b (fun i hi => hno i (by omega))

/-- C7 (amended): with bank 0 and program below the program count, when the
remote side answers every call and no two connected control ports share a
cell, selectProgram issues setCurrentProgram(program) followed by one
getParameter(i) per connected control port i, and afterwards the cell and the
shadow value of every connected port i hold the value returned for i; the
shadow values of unconnected ports and all other members (port tables, block
size, liveness flag) are as before. -/
theorem C7_selectProgram (r : Remote) (w : World) (program : Nat)
    (hprog : program < w.inst.m_programCount)
    (hopen : ∀ j, j ≤ w.inst.m_controlPortCount →
      (r (w.log ++ [RemoteCall.setCurrentProgram program] ++ fetchCalls w j)).closed = false)
    (hdistinct : ∀ i j a, i < w.inst.m_controlPortCount → j < w.inst.m_controlPortCount →
      w.inst.m_controlPorts i = some a → w.inst.m_controlPorts j = some a → i = j) :
    ∃ w1, selectProgram r 0 program w = Except.ok w1 ∧
      w1.log = w.log ++ [RemoteCall.setCurrentProgram program] ++
        fetchCalls w w.inst.m_controlPortCount ∧
      (∀ i a, i < w.inst.m_controlPortCount → w.inst.m_controlPorts i = some a →
        w1.mem a = fetched r w program i ∧
          w1.inst.m_controlPortsSaved i = fetched r w program i) ∧
      (∀ i, w.inst.m_controlPorts i = none →
        w1.inst.m_controlPortsSaved i = w.inst.m_controlPortsSaved i) ∧
      w1.inst = { w.inst with m_controlPortsSaved := w1.inst.m_controlPortsSaved } ∧
      w1.inst.m_controlPorts = w.inst.m_controlPorts ∧
      w1.inst.m_audioIns = w.inst.m_audioIns ∧
      w1.inst.m_audioOuts = w.inst.m_audioOuts ∧
      w1.inst.m_lastSampleCount = w.inst.m_lastSampleCount ∧
      w1.inst.m_ok = w.inst.m_ok := by
  obtain ⟨w1, hloop, hlog, _, hinst, hsv, hsu, hmv, _⟩ :=
    selectProgram_loop r w program w.inst.m_controlPortCount hopen
  have h0 : (r (w.log ++ [RemoteCall.setCurrentProgram program])).closed = false := by
    have h := hopen 0 (Nat.zero_le _)
    simpa [fetchCalls] using h
  refine ⟨w1, ?_, hlog, ?_, ?_, hinst, ?_, ?_, ?_, ?_, ?_⟩
  · have hg : ¬ (0 ≠ 0 ∨ program ≥ w.inst.m_programCount) := by
      intro h
      rcases h with h | h
      · exact h rfl
      · exact absurd hprog (Nat.not_lt.mpr h)
    simp only [selectProgram, hg, if_false, issue, h0, Bool.false_eq_true]
    exact hloop
  · intro i a hi hp
    refine ⟨?_, hsv i a hi hp⟩
    apply hmv i a hi hp
    intro j hij hj hpj
    have e := hdistinct i j a hi hj hp hpj
    omega
  · intro i hi
    exact hsu i (Or.inr hi)
  · rw [hinst]
  · rw [hinst]
  · rw [hinst]
  · rw [hinst]
  · rw [hinst]

/-- C7 (amended) on the sample adapter with control port 0 connected to
cell 5: the cell receives the value 10 the remote side reports. -/
theorem C7_selectProgram_witness :
    0 < oneControlWorld.inst.m_programCount ∧
    ∃ w1, selectProgram sampleRemote 0 0 oneControlWorld = Except.ok w1 ∧
      w1.mem 5 = 10 ∧ w1.inst.m_controlPortsSaved 0 = 10 :=
  ⟨by decide,
    match C7_selectProgram sampleRemote oneControlWorld 0 (by decide) (fun _ _ => rfl)
      (fun i j a hi hj hpi hpj => by
        have h1 : oneControlWorld.inst.m_controlPorts 1 = none := by decide
        have h2 : oneControlWorld.inst.m_controlPortCount = 2 := by decide
        rw [h2] at hi hj
        have hi0 : i = 0 := by
          by_contra h
          have e : i = 1 := by omega
          rw [e, h1] at hpi
          exact absurd hpi (by simp)
        have hj0 : j = 0 := by
          by_contra h
          have e : j = 1 := by omega
          rw [e, h1] at hpj
          exact absurd hpj (by simp)
        rw [hi0, hj0]) with
    | ⟨w1, h, _, hv, _⟩ =>
      ⟨w1, h, (hv 0 5 (by decide) (by decide)).1.trans (by decide),
        (hv 0 5 (by decide) (by decide)).2.trans (by decide)⟩⟩

/-- C7 as stated fails when two connected control ports share a cell: with
ports 0 and 1 on cell 5, selectProgram returns, the remote side reports 10
for parameter 0, and the cell of port 0 ends up holding 11, the value of
parameter 1. -/
theorem C7_counterexample :
    returned (selectProgram sampleRemote 0 0 twoOnOneCellWorld) = true ∧
    twoOnOneCellWorld.inst.m_ok = true ∧
    twoOnOneCellWorld.inst.m_controlPorts 0 = some 5 ∧
    fetched sampleRemote twoOnOneCellWorld 0 0 = 10 ∧
    (outcome (selectProgram sampleRemote 0 0 twoOnOneCellWorld)).mem 5 = 11 ∧
    (outcome (selectProgram sampleRemote 0 0 twoOnOneCellWorld)).log =
      twoOnOneCellWorld.log ++ [RemoteCall.setCurrentProgram 0, RemoteCall.getParameter 0,
        RemoteCall.getParameter 1] := by
  decide

/-! ## The Failed state and the call boundary -/

/-- The operations that test `m_ok` first do nothing on a Failed adapter. -/
theorem guarded_noop (r : Remote) (w : World) (h : w.inst.m_ok = false) :
    (∀ n, run r n w = w) ∧ activate r w = w ∧ deactivate r w = w ∧
      ∀ k location, connectPort k location w = w := by
  refine ⟨fun n => run_failed r n w h, ?_, ?_, ?_⟩
  · simp only [activate, h, Bool.false_eq_true, if_false]
  · simp only [deactivate, h, Bool.false_eq_true, if_false]
  · intro k location
    simp only [connectPort, h, Bool.not_false, if_true]

/-- C5, evaluated on an adapter that became Failed when the channel closed
during run: selectProgram(0, 0) still issues setCurrentProgram(0), and
runSynth with two events still writes both MIDI buffers and issues a
sendMIDIData call. -/
theorem C5_failed_adapter_still_acts :
    failedWorld.inst.m_ok = false ∧
    0 < failedWorld.inst.m_programCount ∧
    (outcome (selectProgram (closingRemote 6) 0 0 failedWorld)).log =
      failedWorld.log ++ [RemoteCall.setCurrentProgram 0] ∧
    failedWorld.inst.m_alsaDecoder = true ∧
    ((runSynth (closingRemote 6) sampleDecoder 64 sampleEvents 2 failedWorld).log.drop
      failedWorld.log.length).map sentEvents = [some 2] ∧
    failedWorld.inst.m_frameOffsetsBuffer 0 = 0 ∧
    (runSynth (closingRemote 6) sampleDecoder 64 sampleEvents 2
      failedWorld).inst.m_frameOffsetsBuffer 0 = 7 ∧
    failedWorld.inst.m_decodeBuffer 0 = 0 ∧
    (runSynth (closingRemote 6) sampleDecoder 64 sampleEvents 2
      failedWorld).inst.m_decodeBuffer 0 = 144 := by
  decide

/-- C6, evaluated on an Ok adapter whose channel closes on the next call:
the exception thrown by setCurrentProgram leaves selectProgram, and the
adapter is still marked Ok. -/
theorem C6_selectProgram_throws :
    closingWorld.inst.m_ok = true ∧
    0 < closingWorld.inst.m_programCount ∧
    returned (selectProgram (closingRemote 6) 0 0 closingWorld) = false ∧
    (outcome (selectProgram (closingRemote 6) 0 0 closingWorld)).log =
      closingWorld.log ++ [RemoteCall.setCurrentProgram 0] ∧
    (outcome (selectProgram (closingRemote 6) 0 0 closingWorld)).inst.m_ok = true := by
  decide

/-! ## The label -/

theorem restore_map (cs : List Char) (h : '*' ∉ cs) :
    (cs.map (fun c => if c = ' ' then '*' else c)).map (fun c => if c = '*' then ' ' else c) =
      cs := by
  induction cs with
  | nil => rfl
  | cons c cs ih =>
    have hc : c ≠ '*' := fun e => h (by simp [e])
    have hcs : '*' ∉ cs := fun e => h (by simp [e])
    simp only [List.map_cons, ih hcs, List.cons.injEq, and_true]
    by_cases h1 : c = ' '
    · simp [h1]
    · simp [h1, hc]

/-- C8 (amended): the label is the name with every space replaced by an
asterisk, it contains no space, and for a name without an asterisk (in
particular a plain name with spaces) restoring the asterisks of the label to
spaces gives back the name exactly. -/
theorem C8_label_round_trip (fresh : PortTables) (p : Nat) (rec : PluginRecord)
    (h : '*' ∉ rec.dllName.data) :
    (buildDescriptor fresh p rec).Label.data =
      rec.dllName.data.map (fun c => if c = ' ' then '*' else c) ∧
    ' ' ∉ (buildDescriptor fresh p rec).Label.data ∧
    restoreName (buildDescriptor fresh p rec).Label = rec.dllName := by
  refine ⟨rfl, ?_, ?_⟩
  · simp only [buildDescriptor, makeLabel, List.mem_map, not_exists, not_and]
    intro c _
    by_cases h1 : c = ' '
    · simp [h1]
    · simp [h1]
  · simp only [buildDescriptor, makeLabel, restoreName, restore_map _ h]

/-- C8 (amended) on the sample entry, whose name has a space. -/
theorem C8_label_round_trip_witness :
    '*' ∉ sampleRecord.dllName.data ∧
    restoreName (buildDescriptor zeroTables 0 sampleRecord).Label = sampleRecord.dllName :=
  ⟨by decide, (C8_label_round_trip zeroTables 0 sampleRecord (by decide)).2.2⟩

/-- C8 as stated fails twice.  For the entry named with a space, the remote
side is opened by instantiate with the label as it is, asterisk included, not
with the original name.  And for a name that contains an asterisk, restoring the
label does not give back the name. -/
theorem C8_counterexample :
    (sampleRecord.dllName = "my plugin.dll" ∧
      (buildDescriptor zeroTables 0 sampleRecord).Label = "my*plugin.dll" ∧
      (instantiate sampleRemote true zeroInstance (buildDescriptor zeroTables 0 sampleRecord)
        44100 zeroMem emptyHeap []).log.head? = some (RemoteCall.create "my*plugin.dll") ∧
      RemoteCall.create "my*plugin.dll" ≠ RemoteCall.create sampleRecord.dllName) ∧
    (makeLabel "a*b c" = "a*b*c" ∧ restoreName (makeLabel "a*b c") = "a b c" ∧
      restoreName (makeLabel "a*b c") ≠ "a*b c") := by
  decide

/-! ## The event loop of `runSynth` -/

theorem padZeros_index (buf : Nat → Nat) (index k : Nat) :
    (padZeros buf index k).2 = index + k := by
  induction k generalizing buf index with
  | zero => rfl
  | succ k ih =>
    simp only [padZeros, ih]
    omega

theorem padZeros_buf (buf : Nat → Nat) (index k j : Nat) :
    (padZeros buf index k).1 j = if index ≤ j ∧ j < index + k then 0 else buf j := by
  induction k generalizing buf index with
  | zero =>
    have h : ¬ (index ≤ j ∧ j < index + 0) := by omega
    simp only [padZeros, h, if_false]
  | succ k ih =>
    simp only [padZeros, ih, Function.update_apply]
    by_cases h1 : j = index
    · subst h1
      have h2 : ¬ (j + 1 ≤ j ∧ j < j + 1 + k) := by omega
      have h3 : j ≤ j ∧ j < j + (k + 1) := by omega
      simp only [h2, h3, if_false, if_true, and_self]
    · by_cases h2 : index + 1 ≤ j ∧ j < index + 1 + k
      · have h3 : index ≤ j ∧ j < index + (k + 1) := by omega
        simp only [h2, h3, and_self, if_true]
      · have h3 : ¬ (index ≤ j ∧ j < index + (k + 1)) := by omega
        simp only [h1, h2, h3, if_false]

/-- An event that decodes to an error, to no byte or to more than three
bytes leaves the write index and the bytes below it alone. -/
theorem decodeEvent_dropped (dec : Decoder) (ev : snd_seq_event_t) (st : DecodeState)
    (h : ¬ (1 ≤ (dec ev (MIDI_BUFFER_SIZE - st.index)).count ∧
      (dec ev (MIDI_BUFFER_SIZE - st.index)).count ≤ 3)) :
    (decodeEvent dec ev st).index = st.index ∧
      ∀ j, j < st.index → (decodeEvent dec ev st).m_decodeBuffer j = st.m_decodeBuffer j := by
  have hw : ∀ j, j < st.index →
      writeBytes st.m_decodeBuffer st.index (dec ev (MIDI_BUFFER_SIZE - st.index)).bytes j =
        st.m_decodeBuffer j := by
    intro j hj
    have h1 : ¬ (st.index ≤ j ∧
        j < st.index + (dec ev (MIDI_BUFFER_SIZE - st.index)).bytes.length) := by omega
    simp only [writeBytes, h1, if_false]
  unfold decodeEvent
  by_cases h1 : (dec ev (MIDI_BUFFER_SIZE - st.index)).count < 0
  · simp only [h1, if_true, true_and]
    exact hw
  · have h2 : (dec ev (MIDI_BUFFER_SIZE - st.index)).count = 0 ∨
        (dec ev (MIDI_BUFFER_SIZE - st.index)).count > 3 := by omega
    simp only [h1, if_false, h2, if_true, true_and]
    exact hw

/-- An event that decodes to one, two or three bytes moves the write index
by three and leaves there its bytes followed by zeros. -/
theorem decodeEvent_stored (dec : Decoder) (hdec : Honest dec) (ev : snd_seq_event_t)
    (st : DecodeState)
    (h : 1 ≤ (dec ev (MIDI_BUFFER_SIZE - st.index)).count ∧
      (dec ev (MIDI_BUFFER_SIZE - st.index)).count ≤ 3) :
    (decodeEvent dec ev st).index = st.index + 3 ∧
      (padded (dec ev (MIDI_BUFFER_SIZE - st.index))).length = 3 ∧
      (∀ j, j < st.index → (decodeEvent dec ev st).m_decodeBuffer j = st.m_decodeBuffer j) ∧
      ∀ j, j < 3 → (decodeEvent dec ev st).m_decodeBuffer (st.index + j) =
        (padded (dec ev (MIDI_BUFFER_SIZE - st.index))).getD j 0 := by
  have hlen := hdec ev (MIDI_BUFFER_SIZE - st.index) (by omega)
  have h1 : ¬ (dec ev (MIDI_BUFFER_SIZE - st.index)).count < 0 := by omega
  have h2 : ¬ ((dec ev (MIDI_BUFFER_SIZE - st.index)).count = 0 ∨
      (dec ev (MIDI_BUFFER_SIZE - st.index)).count > 3) := by omega
  have hc : (dec ev (MIDI_BUFFER_SIZE - st.index)).count.toNat =
      (dec ev (MIDI_BUFFER_SIZE - st.index)).bytes.length := by omega
  have hl1 : 1 ≤ (dec ev (MIDI_BUFFER_SIZE - st.index)).bytes.length := by omega
  have hl3 : (dec ev (MIDI_BUFFER_SIZE - st.index)).bytes.length ≤ 3 := by omega
  unfold decodeEvent
  simp only [h1, h2, if_false, hc, padZeros_index, padZeros_buf]
  refine ⟨by omega, ?_, ?_, ?_⟩
  · simp only [padded, List.length_append, List.length_replicate]
    omega
  · intro j hj
    have h3 : ¬ (st.index + (dec ev (MIDI_BUFFER_SIZE - st.index)).bytes.length ≤ j ∧
        j < st.index + (dec ev (MIDI_BUFFER_SIZE - st.index)).bytes.length +
          (3 - (dec ev (MIDI_BUFFER_SIZE - st.index)).bytes.length)) := by omega
    have h4 : ¬ (st.index ≤ j ∧
        j < st.index + (dec ev (MIDI_BUFFER_SIZE - st.index)).bytes.length) := by omega
    simp only [h3, if_false, writeBytes, h4]
  · intro j hj
    by_cases h5 : j < (dec ev (MIDI_BUFFER_SIZE - st.index)).bytes.length
    · have h3 : ¬ (st.index + (dec ev (MIDI_BUFFER_SIZE - st.index)).bytes.length ≤
          st.index + j ∧
          st.index + j < st.index + (dec ev (MIDI_BUFFER_SIZE - st.index)).bytes.length +
            (3 - (dec ev (MIDI_BUFFER_SIZE - st.index)).bytes.length)) := by omega
      have h4 : st.index ≤ st.index + j ∧
          st.index + j < st.index + (dec ev (MIDI_BUFFER_SIZE - st.index)).bytes.length := by
        omega
      simp only [h3, if_false, writeBytes, h4, and_self, if_true, Nat.add_sub_cancel_left,
        padded, List.getD_append _ _ _ _ h5]
    · have h3 : st.index + (dec ev (MIDI_BUFFER_SIZE - st.index)).bytes.length ≤
          st.index + j ∧
          st.index + j < st.index + (dec ev (MIDI_BUFFER_SIZE - st.index)).bytes.length +
            (3 - (dec ev (MIDI_BUFFER_SIZE - st.index)).bytes.length) := by omega
      simp only [h3, and_self, if_true, padded]
      rw [List.getD_append_right _ _ _ _ (by omega)]
      simp only [List.getD_eq_getElem?_getD, List.getElem?_replicate]
      split_ifs <;> rfl

/-- The loop from any state: the write index moves by three per stored
event, the bytes below the starting index stay, and the stored events lie
behind one another from the starting index on. -/
theorem decodeLoop_stride (dec : Decoder) (hdec : Honest dec) (events : List snd_seq_event_t)
    (st : DecodeState) :
    (decodeLoop dec events st).index =
        st.index + 3 * (storedEvents dec events st.index).length ∧
      (∀ j, j < st.index → (decodeLoop dec events st).m_decodeBuffer j = st.m_decodeBuffer j) ∧
      ∀ k t, (storedEvents dec events st.index)[k]? = some t →
        t.length = 3 ∧
          ∀ j, j < 3 → (decodeLoop dec events st).m_decodeBuffer (st.index + 3 * k + j) =
            t.getD j 0 := by
  induction events generalizing st with
  | nil =>
    refine ⟨rfl, fun _ _ => rfl, ?_⟩
    intro k t h
    simp [storedEvents] at h
  | cons ev rest ih =>
    by_cases hb : st.index ≥ MIDI_BUFFER_SIZE - 4
    · simp only [decodeLoop, storedEvents, hb, if_true]
      refine ⟨rfl, fun _ _ => trivial, ?_⟩
      intro k t h
      simp at h
    · obtain ⟨ih1, ih2, ih3⟩ := ih (decodeEvent dec ev st)
      by_cases ha : 1 ≤ (dec ev (MIDI_BUFFER_SIZE - st.index)).count ∧
          (dec ev (MIDI_BUFFER_SIZE - st.index)).count ≤ 3
      · obtain ⟨e1, e2, e3, e4⟩ := decodeEvent_stored dec hdec ev st ha
        rw [e1] at ih1 ih2 ih3
        simp only [decodeLoop, storedEvents, hb, if_false, ha, and_self, if_true,
          List.length_cons]
        refine ⟨by rw [ih1]; omega, ?_, ?_⟩
        · intro j hj
          rw [ih2 j (by omega)]
          exact e3 j hj
        · intro k t ht
          cases k with
          | zero =>
            simp only [List.getElem?_cons_zero, Option.some.injEq] at ht
            subst ht
            refine ⟨e2, ?_⟩
            intro j hj
            rw [Nat.mul_zero, Nat.add_zero, ih2 (st.index + j) (by omega)]
            exact e4 j hj
          | succ k =>
            simp only [List.getElem?_cons_succ] at ht
            obtain ⟨h1, h2⟩ := ih3 k t ht
            refine ⟨h1, ?_⟩
            intro j hj
            have e : st.index + 3 * (k + 1) + j = st.index + 3 + 3 * k + j := by omega
            rw [e]
            exact h2 j hj
      · obtain ⟨e1, e3⟩ := decodeEvent_dropped dec ev st ha
        rw [e1] at ih1 ih2 ih3
        simp only [decodeLoop, storedEvents, hb, if_false, ha]
        refine ⟨ih1, ?_, ih3⟩
        intro j hj
        rw [ih2 j hj]
        exact e3 j hj

/-- C10: with a decoder that reports the number of bytes it stored, an
event that decodes to one, two or three bytes is kept as three consecutive
bytes, its own followed by zeros, and moves the write index by three; an
event that decodes to no byte, to more than three or to an error leaves the
write index where it was.  After the loop of runSynth the write index is
three times the number of stored events, and the k-th stored event fills the
bytes 3k, 3k+1, 3k+2. -/
theorem C10_three_byte_stride (dec : Decoder) (hdec : Honest dec)
    (events : List snd_seq_event_t) (w : World) :
    (∀ ev st, 1 ≤ (dec ev (MIDI_BUFFER_SIZE - st.index)).count ∧
        (dec ev (MIDI_BUFFER_SIZE - st.index)).count ≤ 3 →
      (decodeEvent dec ev st).index = st.index + 3 ∧
        (padded (dec ev (MIDI_BUFFER_SIZE - st.index))).length = 3 ∧
        ∀ j, j < 3 → (decodeEvent dec ev st).m_decodeBuffer (st.index + j) =
          (padded (dec ev (MIDI_BUFFER_SIZE - st.index))).getD j 0) ∧
    (∀ ev st, ¬ (1 ≤ (dec ev (MIDI_BUFFER_SIZE - st.index)).count ∧
        (dec ev (MIDI_BUFFER_SIZE - st.index)).count ≤ 3) →
      (decodeEvent dec ev st).index = st.index) ∧
    (decodeLoop dec events (decodeStart w)).index = 3 * (storedEvents dec events 0).length ∧
    (∀ k t, (storedEvents dec events 0)[k]? = some t →
      t.length = 3 ∧
        ∀ j, j < 3 →
          (decodeLoop dec events (decodeStart w)).m_decodeBuffer (3 * k + j) = t.getD j 0) := by
  refine ⟨?_, ?_, ?_, ?_⟩
  · intro ev st h
    obtain ⟨e1, e2, _, e4⟩ := decodeEvent_stored dec hdec ev st h
    exact ⟨e1, e2, e4⟩
  · intro ev st h
    exact (decodeEvent_dropped dec ev st h).1
  · have h := (decodeLoop_stride dec hdec events (decodeStart w)).1
    simpa [decodeStart] using h
  · intro k t ht
    have h := (decodeLoop_stride dec hdec events (decodeStart w)).2.2 k t
      (by simpa [decodeStart] using ht)
    simpa [decodeStart] using h

theorem sampleDecoder_honest : Honest sampleDecoder := by
  intro ev limit h
  unfold sampleDecoder at h ⊢
  split_ifs at h ⊢ with h1
  · simp at h
  · rfl

/-- C10 on the note-on and the program change of the samples: two stored
events, six bytes. -/
theorem C10_three_byte_stride_witness :
    Honest sampleDecoder ∧
    (decodeLoop sampleDecoder [sampleEvents 0, sampleEvents 1] (decodeStart sampleWorld)).index =
      3 * (storedEvents sampleDecoder [sampleEvents 0, sampleEvents 1] 0).length :=
  ⟨sampleDecoder_honest,
    (C10_three_byte_stride sampleDecoder sampleDecoder_honest [sampleEvents 0, sampleEvents 1]
      sampleWorld).2.2.1⟩

/-! ## Frame offsets and the event count -/

/-- C11, evaluated on a rejected event at tick 3 followed by a note-on at
tick 7: the one stored event has its bytes in the first three bytes, but its
frame offset is in slot 1, slot 0 holds the tick of the rejected event, and
the batch is sent with an event count of 2. -/
theorem C11_dropped_event_takes_slot :
    sampleWorld.inst.m_ok = true ∧
    sampleWorld.inst.m_alsaDecoder = true ∧
    (sampleDecoder (droppedThenNotes 0) MIDI_BUFFER_SIZE).count = -2 ∧
    storedEvents sampleDecoder ((List.range 2).map droppedThenNotes) 0 = [[144, 60, 100]] ∧
    (List.range 3).map
      (runSynth sampleRemote sampleDecoder 64 droppedThenNotes 2
        sampleWorld).inst.m_decodeBuffer = [144, 60, 100] ∧
    (runSynth sampleRemote sampleDecoder 64 droppedThenNotes 2
      sampleWorld).inst.m_frameOffsetsBuffer 0 = 3 ∧
    (runSynth sampleRemote sampleDecoder 64 droppedThenNotes 2
      sampleWorld).inst.m_frameOffsetsBuffer 1 = 7 ∧
    ((runSynth sampleRemote sampleDecoder 64 droppedThenNotes 2 sampleWorld).log.drop
      sampleWorld.log.length).filterMap sentEvents = [2] := by
  decide

set_option maxRecDepth 100000 in
/-- C19, evaluated on 342 events that the decoder rejects: the write index
stays 0, the loop never stops, and the last event has its tick written to
slot 341, the first position behind the 341 slots of the frame offset
buffer. -/
theorem C19_frame_offset_overrun :
    MIDI_BUFFER_SIZE / 3 = 341 ∧
    (decodeStart sampleWorld).m_frameOffsetsBuffer 341 = 0 ∧
    (decodeLoop sampleDecoder ((List.range 342).map rejectedEvents)
      (decodeStart sampleWorld)).index = 0 ∧
    (decodeLoop sampleDecoder ((List.range 342).map rejectedEvents)
      (decodeStart sampleWorld)).i = 342 ∧
    (decodeLoop sampleDecoder ((List.range 342).map rejectedEvents)
      (decodeStart sampleWorld)).m_frameOffsetsBuffer 341 = 5 ∧
    (runSynth sampleRemote sampleDecoder 64 rejectedEvents 342
      sampleWorld).inst.m_frameOffsetsBuffer 341 = 5 := by
  decide

/-! ## The event loop: counters, truncation, bounds -/

theorem decodeEvent_i (dec : Decoder) (ev : snd_seq_event_t) (st : DecodeState) :
    (decodeEvent dec ev st).i = st.i + 1 := by
  simp only [decodeEvent]
  split_ifs <;> rfl

theorem decodeEvent_offsets (dec : Decoder) (ev : snd_seq_event_t) (st : DecodeState) :
    (decodeEvent dec ev st).m_frameOffsetsBuffer =
      Function.update st.m_frameOffsetsBuffer st.i (tickToInt ev.tick) := by
  simp only [decodeEvent]
  split_ifs <;> rfl

/-- The write index after one event, for any decoder. -/
theorem decodeEvent_index (dec : Decoder) (ev : snd_seq_event_t) (st : DecodeState) :
    (decodeEvent dec ev st).index =
      if 1 ≤ (dec ev (MIDI_BUFFER_SIZE - st.index)).count ∧
          (dec ev (MIDI_BUFFER_SIZE - st.index)).count ≤ 3
      then st.index + 3 else st.index := by
  unfold decodeEvent
  by_cases h1 : (dec ev (MIDI_BUFFER_SIZE - st.index)).count < 0
  · have h2 : ¬ (1 ≤ (dec ev (MIDI_BUFFER_SIZE - st.index)).count ∧
        (dec ev (MIDI_BUFFER_SIZE - st.index)).count ≤ 3) := by omega
    simp only [h1, if_true, h2, if_false]
  · by_cases h2 : (dec ev (MIDI_BUFFER_SIZE - st.index)).count = 0 ∨
        (dec ev (MIDI_BUFFER_SIZE - st.index)).count > 3
    · have h3 : ¬ (1 ≤ (dec ev (MIDI_BUFFER_SIZE - st.index)).count ∧
          (dec ev (MIDI_BUFFER_SIZE - st.index)).count ≤ 3) := by omega
      simp only [h1, if_false, h2, if_true, h3]
    · have h3 : 1 ≤ (dec ev (MIDI_BUFFER_SIZE - st.index)).count ∧
          (dec ev (MIDI_BUFFER_SIZE - st.index)).count ≤ 3 := by omega
      simp only [h1, if_false, h2, h3, and_self, if_true, padZeros_index]
      omega

theorem decodeLoop_append (dec : Decoder) (l1 l2 : List snd_seq_event_t) (st : DecodeState) :
    decodeLoop dec (l1 ++ l2) st = decodeLoop dec l2 (decodeLoop dec l1 st) := by
  induction l1 generalizing st with
  | nil => rfl
  | cons ev rest ih =>
    by_cases hb : st.index ≥ MIDI_BUFFER_SIZE - 4
    · simp only [List.cons_append, decodeLoop, hb, if_true]
      cases l2 with
      | nil => rfl
      | cons ev2 rest2 => simp only [decodeLoop, hb, if_true]
    · simp only [List.cons_append, decodeLoop, hb, if_false]
      exact ih _

/-- The counters after the loop: `i` has moved by at most the number of
events, and by less only when the loop stopped at its `break`; the write
index has not gone back, stays a multiple of three and stays at or below
1021. -/
theorem decodeLoop_counters (dec : Decoder) (l : List snd_seq_event_t) (st : DecodeState) :
    st.i ≤ (decodeLoop dec l st).i ∧
      (decodeLoop dec l st).i ≤ st.i + l.length ∧
      ((decodeLoop dec l st).i = st.i + l.length ∨
        (decodeLoop dec l st).index ≥ MIDI_BUFFER_SIZE - 4) ∧
      st.index ≤ (decodeLoop dec l st).index ∧
      (3 ∣ st.index → 3 ∣ (decodeLoop dec l st).index) ∧
      (st.index ≤ 1021 → (decodeLoop dec l st).index ≤ 1021) := by
  induction l generalizing st with
  | nil =>
    refine ⟨Nat.le_refl _, Nat.le_refl _, Or.inl rfl, Nat.le_refl _, fun h => h, fun h => h⟩
  | cons ev rest ih =>
    by_cases hb : st.index ≥ MIDI_BUFFER_SIZE - 4
    · have e : decodeLoop dec (ev :: rest) st = st := by
        simp only [decodeLoop, hb, if_true]
      rw [e, List.length_cons]
      exact ⟨Nat.le_refl _, by omega, Or.inr hb, Nat.le_refl _, fun h => h, fun h => h⟩
    · obtain ⟨h1, h2, h3, h4, h5, h6⟩ := ih (decodeEvent dec ev st)
      have hi := decodeEvent_i dec ev st
      have hx := decodeEvent_index dec ev st
      simp only [decodeLoop, hb, if_false, List.length_cons]
      simp only [MIDI_BUFFER_SIZE] at hb hx h3 ⊢
      refine ⟨by omega, by omega, ?_, ?_, ?_, ?_⟩
      · rcases h3 with h3 | h3
        · left
          omega
        · right
          exact h3
      · split_ifs at hx <;> omega
      · intro hd
        apply h5
        split_ifs at hx <;> omega
      · intro _
        apply h6
        split_ifs at hx <;> omega

/-- The counters of the loop do not depend on what the buffers hold. -/
theorem decodeLoop_counters_eq (dec : Decoder) (l : List snd_seq_event_t)
    (st st2 : DecodeState) (hi : st.i = st2.i) (hx : st.index = st2.index) :
    (decodeLoop dec l st).i = (decodeLoop dec l st2).i ∧
      (decodeLoop dec l st).index = (decodeLoop dec l st2).index := by
  induction l generalizing st st2 with
  | nil => exact ⟨hi, hx⟩
  | cons ev rest ih =>
    by_cases hb : st.index ≥ MIDI_BUFFER_SIZE - 4
    · have hb2 : st2.index ≥ MIDI_BUFFER_SIZE - 4 := by rw [← hx]; exact hb
      simp only [decodeLoop, hb, hb2, if_true]
      exact ⟨hi, hx⟩
    · have hb2 : ¬ st2.index ≥ MIDI_BUFFER_SIZE - 4 := by rw [← hx]; exact hb
      simp only [decodeLoop, hb, hb2, if_false]
      apply ih
      · rw [decodeEvent_i, decodeEvent_i, hi]
      · rw [decodeEvent_index, decodeEvent_index, hx]

/-- An event that the loop hands to the decoder found all earlier events
handed on and the write index below the `break` bound; otherwise the state
reached before that event is the state the loop ends in. -/
theorem decodeLoop_handed (dec : Decoder) (events : List snd_seq_event_t) (st : DecodeState)
    (j : Nat) (hj : j < events.length) :
    (j + st.i < (decodeLoop dec events st).i →
      (decodeLoop dec (events.take j) st).i = st.i + j ∧
        (decodeLoop dec (events.take j) st).index < MIDI_BUFFER_SIZE - 4) ∧
    ((decodeLoop dec (events.take j) st).i = st.i + j →
      (decodeLoop dec (events.take j) st).index < MIDI_BUFFER_SIZE - 4 →
        j + st.i < (decodeLoop dec events st).i) ∧
    ((decodeLoop dec (events.take j) st).index ≥ MIDI_BUFFER_SIZE - 4 →
      decodeLoop dec events st = decodeLoop dec (events.take j) st) := by
  have hsplit : decodeLoop dec events st =
      decodeLoop dec (events.drop j) (decodeLoop dec (events.take j) st) := by
    rw [← decodeLoop_append, List.take_append_drop]
  obtain ⟨ev, rest, hd⟩ : ∃ ev rest, events.drop j = ev :: rest := by
    cases h : events.drop j with
    | nil =>
      have := congrArg List.length h
      simp only [List.length_drop, List.length_nil] at this
      omega
    | cons ev rest => exact ⟨ev, rest, rfl⟩
  have hlen : (events.take j).length = j := by
    rw [List.length_take]
    omega
  obtain ⟨_, c2, c3, _, _, _⟩ := decodeLoop_counters dec (events.take j) st
  rw [hlen] at c2 c3
  have hstop : (decodeLoop dec (events.take j) st).index ≥ MIDI_BUFFER_SIZE - 4 →
      decodeLoop dec events st = decodeLoop dec (events.take j) st := by
    intro hb
    rw [hsplit, hd]
    simp only [decodeLoop, hb, if_true]
  refine ⟨?_, ?_, hstop⟩
  · intro h
    by_cases hb : (decodeLoop dec (events.take j) st).index ≥ MIDI_BUFFER_SIZE - 4
    · rw [hstop hb] at h
      omega
    · refine ⟨?_, by omega⟩
      rcases c3 with c3 | c3
      · exact c3
      · exact absurd c3 hb
  · intro h1 h2
    have hb : ¬ (decodeLoop dec (events.take j) st).index ≥ MIDI_BUFFER_SIZE - 4 := by omega
    rw [hsplit, hd]
    simp only [decodeLoop, hb, if_false]
    obtain ⟨d1, _, _, _, _, _⟩ := decodeLoop_counters dec rest
      (decodeEvent dec ev (decodeLoop dec (events.take j) st))
    rw [decodeEvent_i] at d1
    omega

/-- C12: the counter `i` of the loop counts the events handed to the
decoder, so event j is handed on exactly when j is below the final `i`.  That
is the case if and only if all earlier events were handed on and the headroom
before event j, 1023 minus the write index, is at least 4.  From the first
event that finds less headroom on, the loop ends in the state reached before
that event, so no later event is handed on.  Both counters start from zero
in every call, whatever an earlier call left in the adapter. -/
theorem C12_truncation (dec : Decoder) (events : List snd_seq_event_t) (w w2 : World) (j : Nat)
    (hj : j < events.length) :
    (j < (decodeLoop dec events (decodeStart w)).i ↔
      (decodeLoop dec (events.take j) (decodeStart w)).i = j ∧
        4 ≤ MIDI_BUFFER_SIZE - (decodeLoop dec (events.take j) (decodeStart w)).index) ∧
    (MIDI_BUFFER_SIZE - (decodeLoop dec (events.take j) (decodeStart w)).index < 4 →
      decodeLoop dec events (decodeStart w) = decodeLoop dec (events.take j) (decodeStart w) ∧
        (decodeLoop dec events (decodeStart w)).i ≤ j) ∧
    (decodeLoop dec events (decodeStart w2)).i = (decodeLoop dec events (decodeStart w)).i ∧
    (decodeLoop dec events (decodeStart w2)).index =
      (decodeLoop dec events (decodeStart w)).index := by
  obtain ⟨h1, h2, h3⟩ := decodeLoop_handed dec events (decodeStart w) j hj
  obtain ⟨_, c2, _, _, c5, _⟩ := decodeLoop_counters dec (events.take j) (decodeStart w)
  have hlen : (events.take j).length = j := by
    rw [List.length_take]
    omega
  have hdvd : 3 ∣ (decodeLoop dec (events.take j) (decodeStart w)).index :=
    c5 (by simp [decodeStart])
  have hi0 : (decodeStart w).i = 0 := rfl
  rw [hi0] at h1 h2 c2
  rw [hlen] at c2
  simp only [MIDI_BUFFER_SIZE] at h1 h2 h3 ⊢
  refine ⟨⟨?_, ?_⟩, ?_, ?_⟩
  · intro h
    obtain ⟨a, b⟩ := h1 (by omega)
    exact ⟨by omega, by omega⟩
  · intro h
    have := h2 (by omega) (by omega)
    omega
  · intro h
    have e := h3 (by omega)
    refine ⟨e, ?_⟩
    rw [e]
    omega
  · exact decodeLoop_counters_eq dec events (decodeStart w2) (decodeStart w) rfl rfl

/-- C12 on the two sample events: the second one is handed to the decoder. -/
theorem C12_truncation_witness :
    1 < [sampleEvents 0, sampleEvents 1].length ∧
    (1 < (decodeLoop sampleDecoder [sampleEvents 0, sampleEvents 1]
        (decodeStart sampleWorld)).i ↔
      (decodeLoop sampleDecoder ([sampleEvents 0, sampleEvents 1].take 1)
          (decodeStart sampleWorld)).i = 1 ∧
        4 ≤ MIDI_BUFFER_SIZE - (decodeLoop sampleDecoder ([sampleEvents 0, sampleEvents 1].take 1)
          (decodeStart sampleWorld)).index) :=
  ⟨by decide,
    (C12_truncation sampleDecoder [sampleEvents 0, sampleEvents 1] sampleWorld sampleWorld 1
      (by decide)).1⟩

/-- One event, decoded with the write index below the `break` bound, changes
no byte behind the decode buffer. -/
theorem decodeEvent_outside (dec : Decoder) (hlim : WithinLimit dec) (ev : snd_seq_event_t)
    (st : DecodeState) (hb : st.index < MIDI_BUFFER_SIZE - 4) (p : Nat)
    (hp : MIDI_BUFFER_SIZE ≤ p) :
    (decodeEvent dec ev st).m_decodeBuffer p = st.m_decodeBuffer p := by
  have hl := hlim ev (MIDI_BUFFER_SIZE - st.index)
  have hw : writeBytes st.m_decodeBuffer st.index (dec ev (MIDI_BUFFER_SIZE - st.index)).bytes p =
      st.m_decodeBuffer p := by
    have h1 : ¬ (st.index ≤ p ∧
        p < st.index + (dec ev (MIDI_BUFFER_SIZE - st.index)).bytes.length) := by
      simp only [MIDI_BUFFER_SIZE] at hl hp hb ⊢
      omega
    simp only [writeBytes, h1, if_false]
  simp only [decodeEvent]
  split_ifs with h1 h2
  · exact hw
  · exact hw
  · simp only [padZeros_buf]
    have h3 : ¬ (st.index + (dec ev (MIDI_BUFFER_SIZE - st.index)).count.toNat ≤ p ∧
        p < st.index + (dec ev (MIDI_BUFFER_SIZE - st.index)).count.toNat +
          (3 - (dec ev (MIDI_BUFFER_SIZE - st.index)).count.toNat)) := by
      simp only [MIDI_BUFFER_SIZE] at hp hb h1 h2 ⊢
      omega
    simp only [h3, if_false]
    exact hw

theorem decodeLoop_outside (dec : Decoder) (hlim : WithinLimit dec)
    (events : List snd_seq_event_t) (st : DecodeState) (p : Nat) (hp : MIDI_BUFFER_SIZE ≤ p) :
    (decodeLoop dec events st).m_decodeBuffer p = st.m_decodeBuffer p := by
  induction events generalizing st with
  | nil => rfl
  | cons ev rest ih =>
    by_cases hb : st.index ≥ MIDI_BUFFER_SIZE - 4
    · simp only [decodeLoop, hb, if_true]
    · simp only [decodeLoop, hb, if_false]
      rw [ih, decodeEvent_outside dec hlim ev st (by omega) p hp]

/-- C20: with a decoder that stores no more bytes than the space it is
offered, the loop of runSynth changes no byte at a position from 1023 on,
whatever the buffer held before; before each event that is handed to the
decoder the write index is at most 1018, and after any number of events it
is at most 1021. -/
theorem C20_decode_buffer_bounds (dec : Decoder) (hlim : WithinLimit dec)
    (events : List snd_seq_event_t) (w : World) :
    (∀ p, MIDI_BUFFER_SIZE ≤ p →
      (decodeLoop dec events (decodeStart w)).m_decodeBuffer p = w.inst.m_decodeBuffer p) ∧
    (∀ j, j < events.length → j < (decodeLoop dec events (decodeStart w)).i →
      (decodeLoop dec (events.take j) (decodeStart w)).index ≤ 1018) ∧
    (∀ j, (decodeLoop dec (events.take j) (decodeStart w)).index ≤ 1021) ∧
    (decodeLoop dec events (decodeStart w)).index ≤ 1021 := by
  refine ⟨?_, ?_, ?_, ?_⟩
  · intro p hp
    exact decodeLoop_outside dec hlim events (decodeStart w) p hp
  · intro j hj h
    obtain ⟨h1, _, _⟩ := decodeLoop_handed dec events (decodeStart w) j hj
    have h2 := (h1 (by simpa [decodeStart] using h)).2
    simp only [MIDI_BUFFER_SIZE] at h2
    omega
  · intro j
    exact (decodeLoop_counters dec (events.take j) (decodeStart w)).2.2.2.2.2
      (by simp [decodeStart])
  · exact (decodeLoop_counters dec events (decodeStart w)).2.2.2.2.2 (by simp [decodeStart])

theorem sampleDecoder_withinLimit : WithinLimit sampleDecoder := by
  intro ev limit
  unfold sampleDecoder
  split_ifs
  · exact Nat.zero_le _
  · simp only [List.length_take]
    exact Nat.min_le_left _ _

/-- C20 on the two sample events. -/
theorem C20_decode_buffer_bounds_witness :
    WithinLimit sampleDecoder ∧
    (decodeLoop sampleDecoder [sampleEvents 0, sampleEvents 1]
      (decodeStart sampleWorld)).index ≤ 1021 :=
  ⟨sampleDecoder_withinLimit,
    (C20_decode_buffer_bounds sampleDecoder sampleDecoder_withinLimit
      [sampleEvents 0, sampleEvents 1] sampleWorld).2.2.2⟩

/-! ## The event loop: frame offsets and capacity -/

theorem decodeLoop_offsets_below (dec : Decoder) (l : List snd_seq_event_t) (st : DecodeState)
    (k : Nat) (hk : k < st.i) :
    (decodeLoop dec l st).m_frameOffsetsBuffer k = st.m_frameOffsetsBuffer k := by
  induction l generalizing st with
  | nil => rfl
  | cons ev rest ih =>
    by_cases hb : st.index ≥ MIDI_BUFFER_SIZE - 4
    · simp only [decodeLoop, hb, if_true]
    · simp only [decodeLoop, hb, if_false]
      rw [ih _ (by rw [decodeEvent_i]; omega), decodeEvent_offsets]
      have hne : k ≠ st.i := by omega
      simp only [Function.update_apply, hne, if_false]

/-- The slot of the frame offset buffer with the number of an event that was
handed to the decoder holds the tick of that event. -/
theorem decodeLoop_offsets (dec : Decoder) (l : List snd_seq_event_t) (st : DecodeState)
    (k : Nat) (h1 : st.i ≤ k) (h2 : k < (decodeLoop dec l st).i) :
    ∃ ev, l[k - st.i]? = some ev ∧
      (decodeLoop dec l st).m_frameOffsetsBuffer k = tickToInt ev.tick := by
  induction l generalizing st with
  | nil =>
    simp only [decodeLoop] at h2
    omega
  | cons ev rest ih =>
    by_cases hb : st.index ≥ MIDI_BUFFER_SIZE - 4
    · simp only [decodeLoop, hb, if_true] at h2
      omega
    · simp only [decodeLoop, hb, if_false] at h2 ⊢
      by_cases hk : k = st.i
      · refine ⟨ev, by simp [hk], ?_⟩
        rw [decodeLoop_offsets_below dec rest _ k (by rw [decodeEvent_i]; omega),
          decodeEvent_offsets, hk, Function.update_same]
      · obtain ⟨ev2, e1, e2⟩ := ih (decodeEvent dec ev st) (by rw [decodeEvent_i]; omega) h2
        rw [decodeEvent_i] at e1
        refine ⟨ev2, ?_, e2⟩
        have e3 : k - st.i = (k - (st.i + 1)) + 1 := by omega
        rw [e3, List.getElem?_cons_succ]
        exact e1

/-- When every event decodes to one, two or three bytes and the events fit
below byte 1020, the loop hands all of them to the decoder and stores all of
them. -/
theorem decodeLoop_all (dec : Decoder) (l : List snd_seq_event_t) (st : DecodeState)
    (hall : AllStored dec l) (hroom : st.index + 3 * l.length ≤ 1020) :
    (decodeLoop dec l st).i = st.i + l.length ∧
      (decodeLoop dec l st).index = st.index + 3 * l.length ∧
      ∀ k ev, l[k]? = some ev →
        (storedEvents dec l st.index)[k]? =
          some (padded (dec ev (MIDI_BUFFER_SIZE - (st.index + 3 * k)))) := by
  induction l generalizing st with
  | nil =>
    refine ⟨rfl, rfl, ?_⟩
    intro k ev h
    simp at h
  | cons ev rest ih =>
    have hb : ¬ st.index ≥ MIDI_BUFFER_SIZE - 4 := by
      simp only [MIDI_BUFFER_SIZE, List.length_cons] at hroom ⊢
      omega
    have ha := hall ev (List.mem_cons_self _ _) (MIDI_BUFFER_SIZE - st.index)
      (by simp only [MIDI_BUFFER_SIZE] at hb ⊢; omega)
    have hx : (decodeEvent dec ev st).index = st.index + 3 := by
      rw [decodeEvent_index]
      simp only [ha, and_self, if_true]
    obtain ⟨i1, i2, i3⟩ := ih (decodeEvent dec ev st)
      (fun e he => hall e (List.mem_cons_of_mem _ he))
      (by rw [hx]; simp only [List.length_cons] at hroom; omega)
    rw [decodeEvent_i] at i1
    rw [hx] at i2 i3
    simp only [decodeLoop, storedEvents, hb, if_false, ha, and_self, if_true, List.length_cons]
    refine ⟨by omega, by omega, ?_⟩
    intro k e hk
    cases k with
    | zero =>
      simp only [List.getElem?_cons_zero, Option.some.injEq] at hk
      subst hk
      simp only [List.getElem?_cons_zero, Nat.mul_zero, Nat.add_zero]
    | succ k =>
      simp only [List.getElem?_cons_succ] at hk ⊢
      have e3 : st.index + 3 * (k + 1) = st.index + 3 + 3 * k := by omega
      rw [e3]
      exact i3 k e hk

theorem decodeEventAt_code (dec : Decoder) (ev : snd_seq_event_t) (st : DecodeState) :
    decodeEventAt MIDI_BUFFER_SIZE dec ev st = decodeEvent dec ev st := rfl

/-- At the buffer size of the source the loop with the size as a parameter
is the loop of the source. -/
theorem decodeLoopAt_code (dec : Decoder) (l : List snd_seq_event_t) (st : DecodeState) :
    decodeLoopAt MIDI_BUFFER_SIZE dec l st = decodeLoop dec l st := by
  induction l generalizing st with
  | nil => rfl
  | cons ev rest ih =>
    simp only [decodeLoopAt, decodeLoop, decodeEventAt_code, ih]

/-- C13 (amended): with a decoder that reports the number of bytes it
stored, every sequence of at most 340 events that each decode to one, two
or three bytes is stored whole: all events are handed to the decoder, the
write index ends at three times their number, event k has its tick in frame
offset slot k and its bytes, padded with zeros, in the bytes 3k, 3k+1,
3k+2. -/
theorem C13_all_stored (dec : Decoder) (hdec : Honest dec) (events : List snd_seq_event_t)
    (w : World) (hall : AllStored dec events) (hn : events.length ≤ 340) :
    (decodeLoop dec events (decodeStart w)).i = events.length ∧
    (decodeLoop dec events (decodeStart w)).index = 3 * events.length ∧
    ∀ k ev, events[k]? = some ev →
      (decodeLoop dec events (decodeStart w)).m_frameOffsetsBuffer k = tickToInt ev.tick ∧
        (padded (dec ev (MIDI_BUFFER_SIZE - 3 * k))).length = 3 ∧
        ∀ j, j < 3 →
          (decodeLoop dec events (decodeStart w)).m_decodeBuffer (3 * k + j) =
            (padded (dec ev (MIDI_BUFFER_SIZE - 3 * k))).getD j 0 := by
  obtain ⟨h1, h2, h3⟩ := decodeLoop_all dec events (decodeStart w) hall
    (by simp only [decodeStart]; omega)
  have hi0 : (decodeStart w).i = 0 := rfl
  have hx0 : (decodeStart w).index = 0 := rfl
  rw [hi0, Nat.zero_add] at h1
  rw [hx0, Nat.zero_add] at h2
  rw [hx0] at h3
  refine ⟨h1, h2, ?_⟩
  intro k ev hk
  have hklt : k < events.length := by
    by_contra hge
    rw [List.getElem?_eq_none (Nat.le_of_not_lt hge)] at hk
    exact absurd hk (by simp)
  obtain ⟨ev2, e1, e2⟩ := decodeLoop_offsets dec events (decodeStart w) k (Nat.zero_le _)
    (by rw [h1]; exact hklt)
  rw [hi0, Nat.sub_zero, hk] at e1
  have e3 : ev2 = ev := (Option.some.inj e1).symm
  rw [e3] at e2
  have hs := h3 k ev hk
  rw [Nat.zero_add] at hs
  obtain ⟨s1, s2⟩ := (decodeLoop_stride dec hdec events (decodeStart w)).2.2 k _
    (by rw [hx0]; exact hs)
  refine ⟨e2, s1, ?_⟩
  intro j hj
  have := s2 j hj
  rw [hx0, Nat.zero_add] at this
  exact this

theorem noteEvents_allStored (n : Nat) :
    AllStored sampleDecoder ((List.range n).map noteEvents) := by
  intro ev hev limit hl
  simp only [List.mem_map, List.mem_range] at hev
  obtain ⟨_, _, rfl⟩ := hev
  have h : min limit 3 = 3 := by omega
  simp [sampleDecoder, noteEvents, h]

/-- C13 (amended) on three note-on events. -/
theorem C13_all_stored_witness :
    Honest sampleDecoder ∧ AllStored sampleDecoder ((List.range 3).map noteEvents) ∧
    ((List.range 3).map noteEvents).length ≤ 340 ∧
    (decodeLoop sampleDecoder ((List.range 3).map noteEvents) (decodeStart sampleWorld)).i =
      ((List.range 3).map noteEvents).length :=
  ⟨sampleDecoder_honest, noteEvents_allStored 3, by decide,
    (C13_all_stored sampleDecoder sampleDecoder_honest ((List.range 3).map noteEvents)
      sampleWorld (noteEvents_allStored 3) (by decide)).1⟩

set_option maxRecDepth 100000 in
/-- C13 as stated fails at 341 events: of 341 note-on events, each decoding
to three bytes, the loop stores 340 and stops with the write index at 1020,
although the bytes 1020, 1021, 1022 are free.  And with the buffer size 9 of
the instance in the spec, the same loop stores two of three such events. -/
theorem C13_counterexample :
    ((List.range 341).map noteEvents).length = 341 ∧
    (sampleDecoder (noteEvents 340) 3).count = 3 ∧
    (decodeLoop sampleDecoder ((List.range 341).map noteEvents) (decodeStart sampleWorld)).i =
      340 ∧
    (decodeLoop sampleDecoder ((List.range 341).map noteEvents)
      (decodeStart sampleWorld)).index = 1020 ∧
    1020 + 3 ≤ MIDI_BUFFER_SIZE ∧
    (decodeLoopAt 9 sampleDecoder ((List.range 3).map noteEvents) (decodeStart sampleWorld)).i =
      2 ∧
    (decodeLoopAt 9 sampleDecoder ((List.range 3).map noteEvents)
      (decodeStart sampleWorld)).index = 6 := by
  decide

/-! ## `runSynth` and `run` -/

theorem forLoopE_runParameter_open (r : Remote) (hopen : ∀ l, (r l).closed = false) (w : World)
    (n : Nat) : forLoopE n (runParameter r) w = Except.ok (scanned w n) := by
  induction n with
  | zero => simp only [forLoopE, scanned_zero]
  | succ n ih =>
    simp only [forLoopE, ih, runParameter_scanned, hopen, Bool.false_eq_true, if_false, ite_self]

/-- A `run` on an Ok adapter whose remote side answers every call ends with
the `process` call. -/
theorem run_open (r : Remote) (hopen : ∀ l, (r l).closed = false) (n : Nat) (w : World)
    (hok : w.inst.m_ok = true) :
    run r n w = { scanned (resized n w) w.inst.m_controlPortCount with
      log := (resized n w).log ++ changedCalls (resized n w) w.inst.m_controlPortCount ++
        [processCall w] } := by
  have hT := runTry_resized r n w (Or.inr (hopen _))
  rw [forLoopE_runParameter_open r hopen] at hT
  have e := resized_processCall n w
  simp only [processCall] at e
  simp only [runProcess, issue, hopen, Bool.false_eq_true, if_false, scanned, e] at hT
  simp only [run, hok, if_true, hT, scanned, processCall]

/-- With no events to handle, `runSynth` is `run`. -/
theorem runSynth_zero (r : Remote) (dec : Decoder) (n : Nat) (events : Nat → snd_seq_event_t)
    (w : World) : runSynth r dec n events 0 w = run r n w := by
  have e : runSynthTry r dec events 0 w = Except.ok w := by
    unfold runSynthTry
    by_cases h : w.inst.m_alsaDecoder = true
    · rw [if_pos h]
      rfl
    · rw [if_neg h]
  simp only [runSynth, e]

/-- The event handling of `runSynth` leaves the liveness flag as it is. -/
theorem runSynthTry_ok (r : Remote) (dec : Decoder) (events : Nat → snd_seq_event_t)
    (eventCount : Nat) (w : World) :
    (outcome (runSynthTry r dec events eventCount w)).inst.m_ok = w.inst.m_ok ∧
      processCall (outcome (runSynthTry r dec events eventCount w)) = processCall w := by
  unfold runSynthTry
  by_cases h : w.inst.m_alsaDecoder = true
  · simp only [h, if_true, issue]
    split_ifs <;> exact ⟨rfl, rfl⟩
  · simp only [h, Bool.false_eq_true, if_false]
    exact ⟨rfl, rfl⟩

/-- C14 (amended): runSynth always goes on to run(sampleCount): when the
event handling returned, on the adapter as the event handling left it, with
the liveness flag unchanged; when sending the batch closed the channel, on
the adapter marked Failed, where run does nothing, so no process call is
issued.  With eventCount = 0, runSynth is run.  On an Ok adapter whose remote
side answers every call, runSynth ends with the process call for the block,
whatever the decoder made of the events. -/
theorem C14_runSynth_then_run (r : Remote) (dec : Decoder) (n : Nat)
    (events : Nat → snd_seq_event_t) (eventCount : Nat) (w : World) :
    (returned (runSynthTry r dec events eventCount w) = true →
      runSynth r dec n events eventCount w =
        run r n (outcome (runSynthTry r dec events eventCount w)) ∧
      (outcome (runSynthTry r dec events eventCount w)).inst.m_ok = w.inst.m_ok) ∧
    (returned (runSynthTry r dec events eventCount w) = false →
      runSynth r dec n events eventCount w =
        run r n (markFailed (outcome (runSynthTry r dec events eventCount w))) ∧
      runSynth r dec n events eventCount w =
        markFailed (outcome (runSynthTry r dec events eventCount w))) ∧
    runSynth r dec n events 0 w = run r n w ∧
    (w.inst.m_ok = true → (∀ l, (r l).closed = false) →
      (runSynth r dec n events eventCount w).log.getLast? = some (processCall w)) := by
  refine ⟨?_, ?_, runSynth_zero r dec n events w, ?_⟩
  · intro h
    refine ⟨?_, (runSynthTry_ok r dec events eventCount w).1⟩
    unfold runSynth
    cases hT : runSynthTry r dec events eventCount w with
    | ok w1 => rfl
    | error e =>
      rw [hT] at h
      exact absurd h (by simp [returned])
  · intro h
    have e1 : runSynth r dec n events eventCount w =
        run r n (markFailed (outcome (runSynthTry r dec events eventCount w))) := by
      unfold runSynth
      cases hT : runSynthTry r dec events eventCount w with
      | ok w1 =>
        rw [hT] at h
        exact absurd h (by simp [returned])
      | error e => rfl
    exact ⟨e1, by rw [e1]; exact run_failed r n _ rfl⟩
  · intro hok hopen
    have hret : returned (runSynthTry r dec events eventCount w) = true := by
      unfold runSynthTry
      by_cases h : w.inst.m_alsaDecoder = true
      · simp only [h, if_true, issue, hopen, Bool.false_eq_true, if_false]
        split_ifs <;> rfl
      · simp only [h, Bool.false_eq_true, if_false]
        rfl
    have e1 : runSynth r dec n events eventCount w =
        run r n (outcome (runSynthTry r dec events eventCount w)) := by
      unfold runSynth
      cases hT : runSynthTry r dec events eventCount w with
      | ok w1 => rfl
      | error e =>
        rw [hT] at hret
        exact absurd hret (by simp [returned])
    obtain ⟨o1, o2⟩ := runSynthTry_ok r dec events eventCount w
    rw [e1, run_open r hopen n _ (by rw [o1]; exact hok), o2]
    simp only [List.getLast?_append, List.getLast?_singleton]
    rfl

/-- C14 (amended) on the sample adapter, whose remote side answers every
call: runSynth with the two sample events ends with the process call. -/
theorem C14_runSynth_then_run_witness :
    sampleWorld.inst.m_ok = true ∧
    (runSynth sampleRemote sampleDecoder 64 sampleEvents 2 sampleWorld).log.getLast? =
      some (processCall sampleWorld) :=
  ⟨by decide,
    (C14_runSynth_then_run sampleRemote sampleDecoder 64 sampleEvents 2 sampleWorld).2.2.2
      (by decide) (fun _ => rfl)⟩

/-- C14 as stated fails when sending the batch closes the channel: on an Ok
adapter, runSynth with the two sample events issues the sendMIDIData call and
nothing else, no process call, and leaves the adapter Failed. -/
theorem C14_counterexample :
    closingWorld.inst.m_ok = true ∧
    ((runSynth (closingRemote 6) sampleDecoder 64 sampleEvents 2 closingWorld).log.drop
      closingWorld.log.length).map sentEvents = [some 2] ∧
    ((runSynth (closingRemote 6) sampleDecoder 64 sampleEvents 2 closingWorld).log.drop
      closingWorld.log.length).filter isProcess = [] ∧
    (runSynth (closingRemote 6) sampleDecoder 64 sampleEvents 2 closingWorld).inst.m_ok =
      false := by
  decide

/-! ## Out-of-range arguments -/

/-- C17: on an Ok adapter with P control ports, I audio inputs and O audio
outputs, connectPort(k, p) with k >= P+I+O+1, k any unsigned 64-bit number,
returns with the adapter, the host cells and the call history as they were;
so does selectProgram(bank, program) with bank != 0 or program >=
programCount. -/
theorem C17_out_of_range (r : Remote) (w : World) (k : Nat) (location : DataPtr)
    (bank program : Nat) (hok : w.inst.m_ok = true) (hk : k < ULONG_RANGE)
    (hge : k ≥ w.inst.m_controlPortCount + w.inst.m_audioInCount + w.inst.m_audioOutCount + 1) :
    connectPort k location w = w ∧
    (bank ≠ 0 ∨ program ≥ w.inst.m_programCount →
      selectProgram r bank program w = Except.ok w) := by
  refine ⟨?_, ?_⟩
  · have e1 : usub k w.inst.m_controlPortCount = k - w.inst.m_controlPortCount :=
      usub_eq _ _ hk (by omega)
    have e2 : usub (k - w.inst.m_controlPortCount) w.inst.m_audioInCount =
        k - w.inst.m_controlPortCount - w.inst.m_audioInCount :=
      usub_eq _ _ (by omega) (by omega)
    have e3 : usub (k - w.inst.m_controlPortCount - w.inst.m_audioInCount)
        w.inst.m_audioOutCount =
        k - w.inst.m_controlPortCount - w.inst.m_audioInCount - w.inst.m_audioOutCount :=
      usub_eq _ _ (by omega) (by omega)
    have h3 : ¬ k < w.inst.m_controlPortCount := by omega
    have h4 : ¬ k - w.inst.m_controlPortCount < w.inst.m_audioInCount := by omega
    have h5 : ¬ k - w.inst.m_controlPortCount - w.inst.m_audioInCount <
        w.inst.m_audioOutCount := by omega
    have h6 : ¬ k - w.inst.m_controlPortCount - w.inst.m_audioInCount -
        w.inst.m_audioOutCount < 1 := by omega
    simp only [connectPort, hok, Bool.not_true, Bool.false_eq_true, if_false, h3, e1, h4, e2,
      h5, e3, h6]
  · intro h
    simp only [selectProgram, h, if_true]

/-- C17 on the sample adapter, which has six ports and one program: port 6
and program 1 are out of range. -/
theorem C17_out_of_range_witness :
    sampleWorld.inst.m_ok = true ∧ 6 < ULONG_RANGE ∧
    6 ≥ sampleWorld.inst.m_controlPortCount + sampleWorld.inst.m_audioInCount +
      sampleWorld.inst.m_audioOutCount + 1 ∧
    connectPort 6 (some 7) sampleWorld = sampleWorld ∧
    selectProgram sampleRemote 0 1 sampleWorld = Except.ok sampleWorld :=
  ⟨by decide, by decide, by decide,
    (C17_out_of_range sampleRemote sampleWorld 6 (some 7) 0 1 (by decide) (by decide)
      (by decide)).1,
    (C17_out_of_range sampleRemote sampleWorld 6 (some 7) 0 1 (by decide) (by decide)
      (by decide)).2 (by decide)⟩

/-! ## The liveness flag -/

theorem forLoopE_keeps (good : World → Prop) (body : Nat → World → Except World World)
    (hbody : ∀ i w, good w → good (outcome (body i w))) (n : Nat) (w : World) (h : good w) :
    good (outcome (forLoopE n body w)) := by
  induction n with
  | zero => exact h
  | succ n ih =>
    simp only [forLoopE]
    cases hT : forLoopE n body w with
    | ok w1 =>
      rw [hT] at ih
      exact hbody n w1 ih
    | error e =>
      rw [hT] at ih
      exact ih

/-- The flag `m_ok` is the same after `selectProgram`, returned or thrown. -/
theorem selectProgram_ok (r : Remote) (bank program : Nat) (w : World) :
    (outcome (selectProgram r bank program w)).inst.m_ok = w.inst.m_ok := by
  unfold selectProgram
  split_ifs with h
  · rfl
  · simp only [issue]
    split_ifs with hc
    · rfl
    · apply forLoopE_keeps (fun x => x.inst.m_ok = w.inst.m_ok)
      · intro i x hx
        simp only [selectProgramPort, issue]
        cases x.inst.m_controlPorts i with
        | none => exact hx
        | some a =>
          simp only
          split_ifs
          · exact hx
          · exact hx
      · rfl

/-- No operation turns the flag `m_ok` from false to true. -/
theorem perform_keeps_failed (r : Remote) (dec : Decoder) (op : Operation) (w w1 : World)
    (hf : w.inst.m_ok = false) (hop : perform r dec op w = some w1) :
    w1.inst.m_ok = false := by
  obtain ⟨g1, g2, g3, g4⟩ := guarded_noop r w hf
  cases op with
  | connectPort port location =>
    simp only [perform, g4, Option.some.injEq] at hop
    rw [← hop]
    exact hf
  | activate =>
    simp only [perform, g2, Option.some.injEq] at hop
    rw [← hop]
    exact hf
  | deactivate =>
    simp only [perform, g3, Option.some.injEq] at hop
    rw [← hop]
    exact hf
  | run sampleCount =>
    simp only [perform, g1, Option.some.injEq] at hop
    rw [← hop]
    exact hf
  | runSynth sampleCount events eventCount =>
    simp only [perform, Option.some.injEq] at hop
    rw [← hop]
    have o1 := (runSynthTry_ok r dec events eventCount w).1
    unfold runSynth
    cases hT : runSynthTry r dec events eventCount w with
    | ok x =>
      rw [hT] at o1
      have hx : x.inst.m_ok = false := by
        rw [← hf]
        exact o1
      simp only [run_failed r sampleCount x hx, hx]
    | error e =>
      simp only [run_failed r sampleCount (markFailed e) rfl]
      rfl
  | getProgram index =>
    simp only [perform, getProgram] at hop
    split_ifs at hop with h
    · simp only [Option.some.injEq] at hop
      rw [← hop]
      exact hf
    · cases hs : strdupAt w.heap (w.inst.m_programs index).Name with
      | none =>
        rw [hs] at hop
        exact absurd hop (by simp)
      | some x =>
        rw [hs] at hop
        simp only [Option.some.injEq] at hop
        rw [← hop]
        exact hf
  | selectProgram bank program =>
    simp only [perform, Option.some.injEq] at hop
    rw [← hop, selectProgram_ok]
    exact hf

/-- From a Failed world on, every world of a series of operations is
Failed. -/
theorem trace_all_failed (r : Remote) (dec : Decoder) (ops : List Operation) (w : World)
    (hf : w.inst.m_ok = false) : ∀ x, x ∈ trace r dec ops w → x.inst.m_ok = false := by
  induction ops generalizing w with
  | nil =>
    intro x hx
    simp only [trace, List.mem_singleton] at hx
    rw [hx]
    exact hf
  | cons op rest ih =>
    intro x hx
    simp only [trace] at hx
    cases hp : perform r dec op w with
    | none =>
      rw [hp] at hx
      simp only [List.mem_singleton] at hx
      rw [hx]
      exact hf
    | some w1 =>
      rw [hp] at hx
      simp only [List.mem_cons] at hx
      rcases hx with hx | hx
      · rw [hx]
        exact hf
      · exact ih w1 (perform_keeps_failed r dec op w w1 hf hp) x hx

/-- Along a series of operations, a world behind a Failed world is Failed. -/
theorem trace_keeps_failed (r : Remote) (dec : Decoder) (ops : List Operation) (w : World)
    (a b : Nat) (wa wb : World) (ha : (trace r dec ops w)[a]? = some wa)
    (hb : (trace r dec ops w)[b]? = some wb) (hab : a ≤ b) (hf : wa.inst.m_ok = false) :
    wb.inst.m_ok = false := by
  induction ops generalizing w a b with
  | nil =>
    simp only [trace] at ha hb
    cases a with
    | zero =>
      simp only [List.getElem?_cons_zero, Option.some.injEq] at ha
      exact trace_all_failed r dec [] w (by rw [ha]; exact hf) wb
        (List.getElem?_mem (by simpa [trace] using hb))
    | succ a => simp at ha
  | cons op rest ih =>
    cases a with
    | zero =>
      have hw : w = wa := by
        simp only [trace] at ha
        cases hp : perform r dec op w with
        | none =>
          rw [hp] at ha
          simpa using ha
        | some w1 =>
          rw [hp] at ha
          simpa using ha
      exact trace_all_failed r dec (op :: rest) w (by rw [hw]; exact hf) wb
        (List.getElem?_mem hb)
    | succ a =>
      cases b with
      | zero => omega
      | succ b =>
        simp only [trace] at ha hb
        cases hp : perform r dec op w with
        | none =>
          rw [hp] at ha
          simp at ha
        | some w1 =>
          rw [hp] at ha hb
          simp only [List.getElem?_cons_succ] at ha hb
          exact ih w1 a b ha hb (by omega)

/-- C18: no operation turns the liveness flag from false to true, whatever
its arguments and whatever the remote side does; so along every series of
operations, once a world has the flag false, every later world has it false:
the flag changes at most once, from true to false. -/
theorem C18_liveness_irreversible (r : Remote) (dec : Decoder) (ops : List Operation)
    (w : World) (a b : Nat) (wa wb : World) (ha : (trace r dec ops w)[a]? = some wa)
    (hb : (trace r dec ops w)[b]? = some wb) (hab : a ≤ b) (hf : wa.inst.m_ok = false) :
    wb.inst.m_ok = false ∧
    ∀ op w1, perform r dec op wa = some w1 → w1.inst.m_ok = false :=
  ⟨trace_keeps_failed r dec ops w a b wa wb ha hb hab hf,
    fun op w1 hop => perform_keeps_failed r dec op wa w1 hf hop⟩

/-- C18 on the sample adapter: a run during which the channel closes, then a
program selection and a run.  The world after the first run is Failed, and so
is the world after the last. -/
theorem C18_liveness_irreversible_witness :
    (trace (closingRemote 6) sampleDecoder
      [Operation.run 64, Operation.selectProgram 0 0, Operation.run 64] closingWorld)[1]? =
        some failedWorld ∧
    failedWorld.inst.m_ok = false ∧
    (run (closingRemote 6) 64 (outcome (selectProgram (closingRemote 6) 0 0
      failedWorld))).inst.m_ok = false :=
  ⟨rfl, by decide,
    (C18_liveness_irreversible (closingRemote 6) sampleDecoder
      [Operation.run 64, Operation.selectProgram 0 0, Operation.run 64] closingWorld 1 3
      failedWorld _ rfl rfl (by decide) (by decide)).1⟩

/-! ## Programs -/

theorem issue_ok (r : Remote) (c : RemoteCall) (w : World) (rep : Reply) (w1 : World)
    (h : issue r c w = Except.ok (rep, w1)) :
    (r (w.log ++ [c])).closed = false ∧ rep = r (w.log ++ [c]) ∧
      w1 = { w with log := w.log ++ [c] } := by
  simp only [issue] at h
  split_ifs at h with hc
  simp only [Except.ok.injEq, Prod.mk.injEq] at h
  exact ⟨by simpa using hc, h.1.symm, h.2.symm⟩

/-- A construction whose `try` block returned has issued its five calls and
then run the loop over the programs to its end. -/
theorem constructTry_inv (r : Remote) (decoderOk : Bool) (dllName : String) (w0 w1 : World)
    (h : constructTry r decoderOk dllName w0 = Except.ok w1) :
    ∃ w5 wL, w5.log = w0.log ++ constructCalls dllName ∧ w5.heap = w0.heap ∧
      w5.inst.m_programCount =
        (r (w0.log ++ constructCalls dllName)).count % ULONG_RANGE ∧
      forLoopE w5.inst.m_programCount (constructProgram r) w5 = Except.ok wL ∧
      w1.heap = wL.heap ∧ w1.inst.m_programs = wL.inst.m_programs ∧
      w1.inst.m_programCount = wL.inst.m_programCount := by
  unfold constructTry at h
  split at h
  · exact absurd h (by simp)
  · rename_i x1 y1 h1
    try dsimp only at h
    split at h
    · exact absurd h (by simp)
    · rename_i x2 y2 h2
      try dsimp only at h
      split at h
      · exact absurd h (by simp)
      · rename_i x3 y3 h3
        try dsimp only at h
        split at h
        · exact absurd h (by simp)
        · rename_i x4 y4 h4
          try dsimp only at h
          split at h
          · exact absurd h (by simp)
          · rename_i x5 y5 h5
            try dsimp only at h
            split at h
            · exact absurd h (by simp)
            · rename_i wL hL
              obtain ⟨_, _, e1⟩ := issue_ok r _ _ _ _ h1
              obtain ⟨_, _, e2⟩ := issue_ok r _ _ _ _ h2
              obtain ⟨_, _, e3⟩ := issue_ok r _ _ _ _ h3
              obtain ⟨_, _, e4⟩ := issue_ok r _ _ _ _ h4
              obtain ⟨_, r5, e5⟩ := issue_ok r _ _ _ _ h5
              simp only [Except.ok.injEq] at h
              refine ⟨{ y5 with inst := { y5.inst with
                m_programCount := x5.count % ULONG_RANGE } }, wL, ?_, ?_, ?_, hL, ?_, ?_, ?_⟩
              · simp only [e5, e4, e3, e2, e1, constructCalls, List.append_assoc,
                  List.singleton_append, List.cons_append, List.nil_append]
              · simp only [e5, e4, e3, e2, e1]
              · simp only [r5, e4, e3, e2, e1, constructCalls, List.append_assoc,
                  List.singleton_append, List.cons_append, List.nil_append]
              · rw [← h]
              · rw [← h]
              · rw [← h]

/-- The loop of the constructor over the programs, run to its end: program
`i` has bank 0, number `i` and a freshly allocated name that reads what the
remote side reported for `i`. -/
theorem constructProgram_loop (r : Remote) (w5 wL : World) (k : Nat)
    (h : forLoopE k (constructProgram r) w5 = Except.ok wL) :
    wL.heap.next = w5.heap.next + k ∧
      wL.inst.m_programCount = w5.inst.m_programCount ∧
      wL.log = w5.log ++ (List.range k).map RemoteCall.getProgramName ∧
      ∀ i, i < k →
        wL.inst.m_programs i = { Bank := 0, Program := i, Name := w5.heap.next + i } ∧
          wL.heap.cells (w5.heap.next + i) =
            some (r (w5.log ++ (List.range (i + 1)).map RemoteCall.getProgramName)).name := by
  induction k generalizing wL with
  | zero =>
    simp only [forLoopE, Except.ok.injEq] at h
    subst h
    refine ⟨rfl, rfl, by simp, ?_⟩
    intro i hi
    exact absurd hi (Nat.not_lt_zero i)
  | succ k ih =>
    simp only [forLoopE] at h
    split at h
    · rename_i wk hk
      obtain ⟨i1, i2, i3, i4⟩ := ih wk hk
      unfold constructProgram at h
      split at h
      · exact absurd h (by simp)
      · rename_i rep w1 h1
        obtain ⟨_, e1, e2⟩ := issue_ok r _ _ _ _ h1
        simp only [Except.ok.injEq] at h
        subst h
        have hlog : wk.log ++ [RemoteCall.getProgramName k] =
            w5.log ++ (List.range (k + 1)).map RemoteCall.getProgramName := by
          simp only [i3, List.range_succ, List.map_append, List.map_cons, List.map_nil,
            List.append_assoc]
        have hh : w1.heap = wk.heap := by rw [e2]
        refine ⟨?_, ?_, ?_, ?_⟩
        · simp only [strdup, hh, i1]
          omega
        · simp only [e2]
          exact i2
        · simp only [e2]
          exact hlog
        · intro i hi
          by_cases hik : i = k
          · subst hik
            simp only [Function.update_same, strdup, hh, i1, e1, hlog, and_self]
          · have hne : w5.heap.next + i ≠ w5.heap.next + k := by omega
            simp only [Function.update_apply, hik, if_false, strdup, hh, i1, hne]
            have := i4 i (by omega)
            simp only [e2]
            exact this
    · exact absurd h (by simp)

/-- A successfully constructed adapter has its program table in order, with
the names the remote side reported. -/
theorem construct_programs (r : Remote) (decoderOk : Bool) (junk : Instance) (dllName : String)
    (sampleRate : Nat) (mem : HostMem) (heap : StringHeap) (log : List RemoteCall)
    (hok : (construct r decoderOk junk dllName sampleRate mem heap log).inst.m_ok = true) :
    (construct r decoderOk junk dllName sampleRate mem heap log).inst.m_programCount =
        (r (log ++ constructCalls dllName)).count % ULONG_RANGE ∧
      ProgramsIntact (construct r decoderOk junk dllName sampleRate mem heap log)
        (reportedName r log dllName) := by
  simp only [construct] at hok ⊢
  generalize hT : constructTry r decoderOk dllName _ = x at hok ⊢
  cases x with
  | error e =>
    simp only at hok
    exact absurd hok (by simp)
  | ok w1 =>
    obtain ⟨w5, wL, c1, c2, c3, c4, c5, c6, c7⟩ := constructTry_inv r decoderOk dllName _ w1 hT
    obtain ⟨l1, l2, _, l4⟩ := constructProgram_loop r w5 wL _ c4
    simp only at c1 c2 c3 ⊢
    refine ⟨by rw [c7, l2, c3], ?_⟩
    intro i hi
    rw [c7, l2] at hi
    obtain ⟨p1, p2⟩ := l4 i hi
    rw [c6, c5, p1]
    refine ⟨rfl, rfl, ?_, ?_⟩
    · simp only [l1, c2]
      omega
    · simp only [p2, c1, reportedName]

/-- On a program table that is in order, `getProgram` returns null for an
index from the program count on, and otherwise a descriptor with bank 0, the
index as number and a name that reads the name of that program; it leaves the
table in order. -/
theorem getProgram_intact (index : Nat) (w : World) (names : Nat → String)
    (hw : ProgramsIntact w names) :
    ∃ res w1, getProgram index w = some (res, w1) ∧
      (res = none ↔ index ≥ w.inst.m_programCount) ∧
      (∀ d, res = some d →
        d.Bank = 0 ∧ d.Program = index ∧ w1.heap.cells d.Name = some (names index)) ∧
      ProgramsIntact w1 names ∧ w1.inst.m_programCount = w.inst.m_programCount := by
  by_cases h : index ≥ w.inst.m_programCount
  · refine ⟨none, w, ?_, ?_, ?_, hw, rfl⟩
    · simp only [getProgram, h, if_true]
    · simp only [h]
    · intro d hd
      exact absurd hd (by simp)
  · obtain ⟨b1, b2, b3, b4⟩ := hw index (by omega)
    refine ⟨some { w.inst.m_programs index with Name := w.heap.next },
      { w with
        heap := (strdup w.heap (names index)).2
        inst := { w.inst with
          m_programs := Function.update w.inst.m_programs index
            { w.inst.m_programs index with Name := w.heap.next } } }, ?_, ?_, ?_, ?_, rfl⟩
    · simp only [getProgram, h, if_false, strdupAt, b4, strdup]
    · simp only [h, iff_false]
      exact fun e => by simp at e
    · intro d hd
      simp only [Option.some.injEq] at hd
      subst hd
      exact ⟨b1, b2, by simp only [strdup, Function.update_same]⟩
    · intro i hi
      by_cases hii : i = index
      · subst hii
        simp only [Function.update_same, strdup]
        exact ⟨b1, b2, Nat.lt_succ_self _, trivial⟩
      · obtain ⟨c1, c2, c3, c4⟩ := hw i hi
        have hne : (w.inst.m_programs i).Name ≠ w.heap.next := by omega
        simp only [Function.update_apply, hii, if_false, strdup, hne]
        exact ⟨c1, c2, by omega, c4⟩

theorem getPrograms_intact (indices : List Nat) (w : World) (names : Nat → String)
    (hw : ProgramsIntact w names) :
    ∃ w1, getPrograms indices w = some w1 ∧ ProgramsIntact w1 names ∧
      w1.inst.m_programCount = w.inst.m_programCount := by
  induction indices generalizing w with
  | nil => exact ⟨w, rfl, hw, rfl⟩
  | cons index rest ih =>
    obtain ⟨res, w1, g1, _, _, g4, g5⟩ := getProgram_intact index w names hw
    obtain ⟨w2, r1, r2, r3⟩ := ih w1 g4
    refine ⟨w2, ?_, r2, by rw [r3, g5]⟩
    simp only [getPrograms, g1, r1]

/-- C15: on a successfully constructed adapter, whose program count is the
count the remote side reported, and after any number of earlier getProgram
calls, getProgram(index) returns null exactly when index is at or above the
program count, and otherwise a descriptor with bank 0, program index and a
name that reads what the remote side reported for program index. -/
theorem C15_getProgram (r : Remote) (decoderOk : Bool) (junk : Instance) (dllName : String)
    (sampleRate : Nat) (mem : HostMem) (heap : StringHeap) (log : List RemoteCall)
    (earlier : List Nat) (index : Nat)
    (hok : (construct r decoderOk junk dllName sampleRate mem heap log).inst.m_ok = true) :
    (construct r decoderOk junk dllName sampleRate mem heap log).inst.m_programCount =
      (r (log ++ constructCalls dllName)).count % ULONG_RANGE ∧
    ∃ w1, getPrograms earlier (construct r decoderOk junk dllName sampleRate mem heap log) =
        some w1 ∧
      ∃ res w2, getProgram index w1 = some (res, w2) ∧
        (res = none ↔ index ≥
          (construct r decoderOk junk dllName sampleRate mem heap log).inst.m_programCount) ∧
        ∀ d, res = some d →
          d.Bank = 0 ∧ d.Program = index ∧
            w2.heap.cells d.Name = some (reportedName r log dllName index) := by
  obtain ⟨c1, c2⟩ := construct_programs r decoderOk junk dllName sampleRate mem heap log hok
  obtain ⟨w1, g1, g2, g3⟩ := getPrograms_intact earlier _ _ c2
  obtain ⟨res, w2, p1, p2, p3, _, _⟩ := getProgram_intact index w1 _ g2
  rw [g3] at p2
  exact ⟨c1, w1, g1, res, w2, p1, p2, p3⟩

/-- C15 on the sample adapter: after two earlier calls, getProgram(0)
returns a descriptor whose name reads the name the remote side reported. -/
theorem C15_getProgram_witness :
    sampleWorld.inst.m_ok = true ∧
    reportedName sampleRemote [] "my plugin.dll" 0 = "Init" ∧
    ∃ w1, getPrograms [0, 0] sampleWorld = some w1 ∧
      ∃ res w2, getProgram 0 w1 = some (res, w2) ∧
        ∀ d, res = some d →
          d.Bank = 0 ∧ d.Program = 0 ∧
            w2.heap.cells d.Name = some (reportedName sampleRemote [] "my plugin.dll" 0) :=
  ⟨by decide, by decide,
    match (C15_getProgram sampleRemote true zeroInstance "my plugin.dll" 44100 zeroMem emptyHeap
      [] [0, 0] 0 (by decide)).2 with
    | ⟨w1, h1, res, w2, h2, _, h3⟩ => ⟨w1, h1, res, w2, h2, h3⟩⟩

/-- C16, evaluated on the sample adapter with its one program: getProgram(0)
hands the host the string at address 1 and keeps that same address in its own
table.  When the host frees that string, the next getProgram(0) reads a
string that is no longer allocated.  (When the host frees it only after the
second call, the second name, at address 2, stays readable.) -/
theorem C16_name_not_independent :
    0 < sampleWorld.inst.m_programCount ∧
    returnedName (getProgram 0 sampleWorld) = some 1 ∧
    ((afterGetProgram 0 sampleWorld).inst.m_programs 0).Name = 1 ∧
    (afterGetProgram 0 sampleWorld).heap.cells 1 = some "Init" ∧
    (hostFree 1 (afterGetProgram 0 sampleWorld)).heap.cells 1 = none ∧
    (getProgram 0 (hostFree 1 (afterGetProgram 0 sampleWorld))).isNone = true ∧
    returnedName (getProgram 0 (afterGetProgram 0 sampleWorld)) = some 2 ∧
    (hostFree 1 (afterGetProgram 0 (afterGetProgram 0 sampleWorld))).heap.cells 2 =
      some "Init" := by
  decide

end DssiVst
